import Mathlib

/-!
Verification development for the PeteRental acquisition-and-reconciliation
pipeline.  The definitions below are a shallow embedding of the Python
sources `rental_database.py`, `langchain_rental_scraper.py` and
`playwright_scraper.py`:

* the JSON store manipulated by `RentalDatabase` becomes an explicit
  `DB` value threaded through the operations; every `load_data` reads the
  current durable value and every `save_data` replaces it, so the value
  returned by an operation is exactly the durable (on-disk) state after
  the operation;
* Python dicts (insertion ordered, unique keys) become association lists
  with in-place update on an existing key and append on a fresh key;
* `datetime.now()` is an abstract `Nat` tick supplied by the caller;
* rental-record field values are kept in their `str()` form, matching how
  the database code compares them;
* the regular-expression searches of the scrapers are hand-compiled into
  deterministic scanners that implement the leftmost-search / greedy /
  lazy semantics of each concrete pattern.
-/

set_option autoImplicit false

namespace PeteRental

/-! ## Python string primitives -/

/-- Whitespace for Python's `str.strip()` and the regex class `\s`. -/
def pySpace (c : Char) : Bool :=
  c == ' ' || c == '\t' || c == '\n' || c == '\r' || c == '\x0b' || c == '\x0c'

/-- Python `str.lower()` restricted to ASCII (all inputs of interest are ASCII). -/
def pyLower (cs : List Char) : List Char := cs.map Char.toLower

/-- Python `str.strip()`. -/
def pyStrip (cs : List Char) : List Char :=
  ((cs.dropWhile pySpace).reverse.dropWhile pySpace).reverse

/-- Python's substring test `needle in hay`. -/
def subIn (needle hay : List Char) : Bool :=
  hay.tails.any (fun t => needle.isPrefixOf t)

/-- `needle in hay` on `String`s. -/
def strIn (needle hay : String) : Bool := subIn needle.data hay.data

/-- Python `str.lower()` on `String`. -/
def lowerStr (s : String) : String := ⟨pyLower s.data⟩

/-- Python `str.strip()` on `String`. -/
def stripStr (s : String) : String := ⟨pyStrip s.data⟩

/-- Python `str.replace(pat, '')` (all non-overlapping occurrences removed,
left to right), the only use of `replace` in `rental_database.py`.  Fuel
is the input length: every step consumes at least one character. -/
def pyRemoveAllGo (pat : List Char) : Nat → List Char → List Char
  | 0, s => s
  | _, [] => []
  | fuel + 1, c :: rest =>
    if pat.isPrefixOf (c :: rest) && !pat.isEmpty then
      pyRemoveAllGo pat fuel (rest.drop (pat.length - 1))
    else
      c :: pyRemoveAllGo pat fuel rest

def pyRemoveAll (pat s : List Char) : List Char := pyRemoveAllGo pat (s.length + 1) s

def httpsPat : List Char := "https://".data

def httpPat : List Char := "http://".data

/-- `website.replace('https://', '').replace('http://', '').split('/')[0]`
from `rental_database.py` (used identically at lines 57, 153 and 204). -/
def cleanWebsite (w : String) : String :=
  ⟨(pyRemoveAll httpPat (pyRemoveAll httpsPat w.data)).takeWhile (fun c => c != '/')⟩

/-! ## Association lists mirroring Python `dict` semantics -/

/-- `d[k] = v`: update in place if the key exists, append otherwise. -/
def dictSet {α : Type} (k : String) (v : α) : List (String × α) → List (String × α)
  | [] => [(k, v)]
  | (k', v') :: t => if k' == k then (k, v) :: t else (k', v') :: dictSet k v t

/-- `del d[k]` (no-op on a missing key; the sources only delete keys they
just enumerated from the same dict). -/
def dictDel {α : Type} (k : String) : List (String × α) → List (String × α)
  | [] => []
  | (k', v') :: t => if k' == k then t else (k', v') :: dictDel k t

/-- `d.get(k)` / `k in d`. -/
def dictFind {α : Type} (k : String) : List (String × α) → Option α
  | [] => none
  | (k', v') :: t => if k' == k then some v' else dictFind k t

/-- Mutation of one field of the value stored at `k` (Python mutates the
dict entry in place). -/
def dictModify {α : Type} (k : String) (f : α → α) : List (String × α) → List (String × α)
  | [] => []
  | (k', v') :: t => if k' == k then (k', f v') :: t else (k', v') :: dictModify k f t

/-! ## The rental database (`rental_database.py`) -/

/-- A rental-data dict as the database sees it.  The database compares
field values through `str(...)`, so every field is kept as its `str()`
image; a missing dict key is `none`. -/
structure RentalData where
  address : Option String := none
  bedrooms : Option String := none
  bathrooms : Option String := none
  price : Option String := none
  available_date : Option String := none
  amenities : Option String := none
  description : Option String := none
deriving DecidableEq, Repr

/-- A stored rental entry (`rental_entry` built in `add_rental`). -/
structure Rental where
  id : String
  website : String
  source_url : String
  scraped_at : Nat
  data : RentalData
deriving DecidableEq, Repr

/-- A per-site entry of `data["websites"]`. -/
structure SiteInfo where
  url : String
  last_scraped : Option Nat
  rental_count : Nat
deriving DecidableEq, Repr

/-- The JSON store root. -/
structure DB where
  last_updated : Option Nat := none
  rentals : List (String × Rental) := []
  websites : List (String × SiteInfo) := []
deriving DecidableEq, Repr

def emptyDB : DB := {}

/-- `str(x).lower().strip()` applied to an address value. -/
def normAddr (s : String) : String := stripStr (lowerStr s)

/-- `RentalDatabase._is_same_rental`: address equality (lower/strip) when
both records carry an address, otherwise at least 2 matches among
bedrooms/bathrooms/price compared as lower-cased strings. -/
def isSameRental (e n : RentalData) : Bool :=
  match e.address, n.address with
  | some a, some b => normAddr a == normAddr b
  | _, _ =>
    let cnt := [(e.bedrooms, n.bedrooms), (e.bathrooms, n.bathrooms), (e.price, n.price)].foldl
      (fun acc p =>
        match p with
        | (some x, some y) => if lowerStr x == lowerStr y then acc + 1 else acc
        | _ => acc) 0
    decide (cnt ≥ 2)

/-- `RentalDatabase._has_data_changed` over the important fields
price/available_date/amenities/description: a field present on exactly one
side, or present on both with different `str()` images, means changed. -/
def hasDataChanged (e n : RentalData) : Bool :=
  [(e.price, n.price), (e.available_date, n.available_date),
   (e.amenities, n.amenities), (e.description, n.description)].any
    (fun p =>
      match p with
      | (some x, some y) => x != y
      | (none, none) => false
      | _ => true)

/-- `RentalDatabase._find_existing_rental`: first stored rental of the
site whose data matches.  (The Python method does its own `load_data()`,
so it reads the durable store.) -/
def findExistingRental (store : DB) (clean : String) (rd : RentalData) : Option Rental :=
  (store.rentals.map Prod.snd).find? (fun r => r.website == clean && isSameRental r.data rd)

/-- `len([r for r in rentals.values() if r["website"] == clean])`. -/
def countSite (clean : String) (rentals : List (String × Rental)) : Nat :=
  ((rentals.map Prod.snd).filter (fun r => r.website == clean)).length

/-- `RentalDatabase.add_rental`, modelled on the durable store.

The update branch of the Python code mutates the rental object returned by
`_find_existing_rental`, which came from a *separate* `load_data()` call,
and then saves its own `data` copy: the data/scraped_at update is applied
to an orphan object and is never persisted.  Hence the durable state after
the update branch is the input store plus (when the branch saves, i.e.
when the data changed) the site-entry initialisation, and nothing else.
Returns the durable store and the returned rental id. -/
def addRental (now : Nat) (store : DB) (website : String) (rd : RentalData) : DB × String :=
  let clean := cleanWebsite website
  let dataW : DB :=
    if (dictFind clean store.websites).isSome then store
    else { store with
           websites := dictSet clean { url := website, last_scraped := none, rental_count := 0 }
                         store.websites }
  match findExistingRental store clean rd with
  | some r =>
    if hasDataChanged r.data rd then
      (dataW, r.id)      -- save_data(data): the mutation itself is lost
    else
      (store, r.id)      -- no save at all
  | none =>
    let rid := clean ++ "_" ++ toString (store.rentals.length + 1)
    let entry : Rental :=
      { id := rid, website := clean, source_url := website, scraped_at := now, data := rd }
    let rentals' := dictSet rid entry dataW.rentals
    let websites' := dictModify clean
      (fun ws => { ws with last_scraped := some now, rental_count := countSite clean rentals' })
      dataW.websites
    ({ dataW with rentals := rentals', websites := websites' }, rid)

/-- The `existing_rentals` dict comprehension of `sync_rentals`: the
stored rentals of the site, keyed by their `id` *field*. -/
def existingOfSite (clean : String) (rentals : List (String × Rental)) :
    List (String × Rental) :=
  ((rentals.map Prod.snd).filter (fun r => r.website == clean)).foldl
    (fun acc r => dictSet r.id r acc) []

/-- The add phase of `sync_rentals`: thread the durable store through
`add_rental` for each record, collecting the returned (truthy) ids. -/
def syncAddsGo (now : Nat) (website : String) :
    List RentalData → DB → List String → DB × List String
  | [], store, ps => (store, ps)
  | rd :: t, store, ps =>
    let res := addRental now store website rd
    syncAddsGo now website t res.1 (if res.2 != "" then ps ++ [res.2] else ps)

def syncAdds (now : Nat) (website : String) (batch : List RentalData) (store : DB) :
    DB × List String :=
  syncAddsGo now website batch store []

/-- `RentalDatabase.sync_rentals`.  The removal phase deletes from (and,
when anything was removed, saves) the *stale* `data` snapshot loaded at
the top of the method, not the store produced by the add phase; so when
`removed_count > 0` the durable result is the pre-sync snapshot minus the
removed ids, discarding whatever the add phase persisted.  Returns the
durable store and the pair `(len(current_rentals), removed_count)`. -/
def syncRentals (now : Nat) (store : DB) (website : String) (batch : List RentalData) :
    DB × (Nat × Nat) :=
  let clean := cleanWebsite website
  let existing := existingOfSite clean store.rentals
  let added := syncAdds now website batch store
  let removal := existing.foldl
    (fun (acc : List String × List (String × Rental) × Nat) kv =>
      if acc.1.contains kv.1 then acc
      else (acc.1, dictDel kv.1 acc.2.1, acc.2.2 + 1))
    (added.2, store.rentals, 0)
  if removal.2.2 > 0 then
    ({ store with rentals := removal.2.1 }, (batch.length, removal.2.2))
  else
    (added.1, (batch.length, removal.2.2))

/-- `RentalDatabase.get_rentals_for_website`. -/
def getRentalsForWebsite (store : DB) (website : String) : List Rental :=
  let clean := cleanWebsite website
  (store.rentals.map Prod.snd).filter (fun r => r.website == clean)

/-- `RentalDatabase.clear_old_data`: delete every stored rental whose
`scraped_at` predates the cutoff (the `days_old` arithmetic is collapsed
into the abstract cutoff tick). -/
def clearOldData (cutoff : Nat) (store : DB) : DB :=
  let old := (store.rentals.filter (fun kv => kv.2.scraped_at < cutoff)).map Prod.fst
  old.foldl (fun st rid => { st with rentals := dictDel rid st.rentals }) store

/-- The durable store after each successive `add_rental` call of the add
phase of `sync_rentals` (each call ends in a `save_data`, or leaves the
previous durable state in place). -/
def addStates (now : Nat) (website : String) : List RentalData → DB → List DB
  | [], _ => []
  | rd :: t, store =>
    (addRental now store website rd).1 :: addStates now website t (addRental now store website rd).1

/-- The sequence of durable states an interrupted `sync_rentals` can leave
behind: the store after each `add_rental` call of the add phase, followed
by the final state of the whole sync (which, when removals occurred,
is the saved stale snapshot). -/
def syncDurableStates (now : Nat) (store : DB) (website : String)
    (batch : List RentalData) : List DB :=
  addStates now website batch store ++ [(syncRentals now store website batch).1]

/-- The durable store after running the add phase over a batch. -/
def applyAdds (now : Nat) (website : String) (batch : List RentalData) (store : DB) : DB :=
  batch.foldl (fun st rd => (addRental now st website rd).1) store

/-! ## Hand-compiled regex scanners

Each `re.search` / `re.findall` of the scrapers is compiled to a
deterministic scanner.  `scanFirst tryAt` implements leftmost search:
Python's engine attempts a match at every start position from the left;
greedy sub-patterns whose character class is disjoint from what follows
are compiled to maximal-munch, and the only constructs that genuinely
backtrack (`[\w\s]+` before a literal suffix, `\d{1,2}` before `\s+`,
optional groups, lazy `[^$]*?`) get explicit descent loops. -/

/-- The regex class `\w` (ASCII). -/
def isWordChar (c : Char) : Bool := c.isAlphanum || c == '_'

/-- The regex class `[\w\s]` (ASCII). -/
def isWordSpace (c : Char) : Bool := isWordChar c || pySpace c

/-- Match a literal case-insensitively at the head (`lit` given in lower
case); returns the consumed characters and the rest. -/
def matchLitCI (lit : List Char) (s : List Char) : Option (List Char × List Char) :=
  let pre := s.take lit.length
  if pre.length == lit.length && pyLower pre == lit then some (pre, s.drop lit.length) else none

/-- Match a literal case-sensitively at the head. -/
def matchLitCS (lit : List Char) (s : List Char) : Option (List Char × List Char) :=
  if lit.isPrefixOf s then some (lit, s.drop lit.length) else none

/-- First alternative (in order) matching case-insensitively at the head. -/
def matchAltsCI : List (List Char) → List Char → Option (List Char × List Char)
  | [], _ => none
  | a :: rest, s =>
    match matchLitCI a s with
    | some r => some r
    | none => matchAltsCI rest s

/-- First alternative (in order) matching case-sensitively at the head. -/
def matchAltsCS : List (List Char) → List Char → Option (List Char × List Char)
  | [], _ => none
  | a :: rest, s =>
    match matchLitCS a s with
    | some r => some r
    | none => matchAltsCS rest s

/-- Leftmost search: attempt `tryAt` at every suffix, left to right. -/
def scanFirst {α : Type} (tryAt : List Char → Option α) : List Char → Option α
  | [] => tryAt []
  | c :: rest =>
    match tryAt (c :: rest) with
    | some r => some r
    | none => scanFirst tryAt rest

/-- `re.sub(r'<[^>]+>', '', text)`: drop tags, keep a `<` that never
closes.  Fuel is the input length (every step consumes ≥ 1 character). -/
def stripTagsGo : Nat → List Char → List Char
  | 0, s => s
  | fuel + 1, s =>
    match s with
    | [] => []
    | '<' :: rest =>
      let run := rest.takeWhile (fun c => c != '>')
      if run.isEmpty then '<' :: stripTagsGo fuel rest
      else
        match rest.drop run.length with
        | '>' :: after => stripTagsGo fuel after
        | _ => '<' :: stripTagsGo fuel rest
    | c :: rest => c :: stripTagsGo fuel rest

def stripTags (s : List Char) : List Char := stripTagsGo (s.length + 1) s

/-- `re.sub(r'\s+', ' ', text)`. -/
def collapseWsGo : Nat → List Char → List Char
  | 0, s => s
  | fuel + 1, s =>
    match s with
    | [] => []
    | c :: rest =>
      if pySpace c then ' ' :: collapseWsGo fuel (rest.dropWhile pySpace)
      else c :: collapseWsGo fuel rest

def collapseWs (s : List Char) : List Char := collapseWsGo (s.length + 1) s

/-- `re.sub(r'[^\w\s\$\-,\.,]', '', text)`. -/
def removeJunk (s : List Char) : List Char :=
  s.filter (fun c => isWordSpace c || c == '$' || c == '-' || c == ',' || c == '.')

/-- `re.sub(r'\s*([,\.])\s*', r'\1 ', text)`: a match is a comma/period
with the maximal whitespace runs around it (a whitespace run not followed
by punctuation can never start a match). -/
def normPunctGo : Nat → List Char → List Char
  | 0, s => s
  | fuel + 1, s =>
    let ws := s.takeWhile pySpace
    match s.drop ws.length with
    | [] => ws
    | c :: tl =>
      if c == ',' || c == '.' then c :: ' ' :: normPunctGo fuel (tl.dropWhile pySpace)
      else ws ++ c :: normPunctGo fuel tl

def normPunct (s : List Char) : List Char := normPunctGo (s.length + 1) s

/-- `LangChainRentalScraper._clean_text`. -/
def cleanText (s : String) : String :=
  ⟨pyStrip (normPunct (removeJunk (collapseWs (stripTags s.data))))⟩

/-- `re.search(r'\$([\d,]+(?:,\d+)?)', t)` and `re.search(r'\$([\d,]+)', t)`:
both capture the maximal run of digits/commas after the first `$` that is
followed by at least one such character.  Returns the captured group. -/
def trySearchPrice : List Char → Option (List Char)
  | [] => none
  | '$' :: rest =>
    let run := rest.takeWhile (fun c => c.isDigit || c == ',')
    if run.isEmpty then trySearchPrice rest else some run
  | _ :: rest => trySearchPrice rest

/-- `(\d+)\s*⟨token⟩` at the head, for a token alternation test `hit`;
captures the digits.  (The token alternatives start with letters, so the
engine's backtracking into `\d+` can never succeed and is omitted.) -/
def tryNumTokAt (hit : List Char → Bool) (s : List Char) : Option (List Char) :=
  let ds := s.takeWhile Char.isDigit
  if ds.isEmpty then none
  else
    let s1 := s.drop ds.length
    let s2 := s1.drop (s1.takeWhile pySpace).length
    if hit s2 then some ds else none

/-- `(\d+)\s*sq\s*ft` (case-insensitive) at the head; captures the digits. -/
def trySqftAt (s : List Char) : Option (List Char) :=
  let ds := s.takeWhile Char.isDigit
  if ds.isEmpty then none
  else
    let s1 := s.drop ds.length
    let s2 := s1.drop (s1.takeWhile pySpace).length
    match matchLitCI ("sq".data) s2 with
    | none => none
    | some (_, s3) =>
      let s4 := s3.drop (s3.takeWhile pySpace).length
      if (matchLitCI ("ft".data) s4).isSome then some ds else none

/-- `[A-Za-z]+\s+\d{1,2}` at the head (the date group shared by the
availability patterns); returns the captured text and the rest. -/
def matchMonthDay (s : List Char) : Option (List Char × List Char) :=
  let ls := s.takeWhile Char.isAlpha
  if ls.isEmpty then none
  else
    let s1 := s.drop ls.length
    let ws := s1.takeWhile pySpace
    if ws.isEmpty then none
    else
      let s2 := s1.drop ws.length
      let ds := (s2.takeWhile Char.isDigit).take 2
      if ds.isEmpty then none else some (ls ++ ws ++ ds, s2.drop ds.length)

/-- `⟨lit⟩\s+([A-Za-z]+\s+\d{1,2}(?:st|nd|rd|th)?)` (case-insensitive) at
the head; `withOrdinal` selects the optional ordinal suffix.  Captures
group 1. -/
def tryLeadDateAt (lit : List Char) (withOrdinal : Bool) (s : List Char) :
    Option (List Char) :=
  match matchLitCI lit s with
  | none => none
  | some (_, s1) =>
    let ws := s1.takeWhile pySpace
    if ws.isEmpty then none
    else
      match matchMonthDay (s1.drop ws.length) with
      | none => none
      | some (g, rest) =>
        if withOrdinal then
          match matchAltsCI [("st".data), ("nd".data), ("rd".data), ("th".data)] rest with
          | some (m, _) => some (g ++ m)
          | none => some g
        else some g

/-- `([A-Za-z]+\s+\d{1,2})\s+⟨lit⟩` (case-insensitive) at the head.  The
`\d{1,2}` backtracks from two digits to one against the following `\s+`. -/
def tryDateBeforeAt (lit : List Char) (s : List Char) : Option (List Char) :=
  let ls := s.takeWhile Char.isAlpha
  if ls.isEmpty then none
  else
    let s1 := s.drop ls.length
    let ws := s1.takeWhile pySpace
    if ws.isEmpty then none
    else
      let s2 := s1.drop ws.length
      let dsAll := s2.takeWhile Char.isDigit
      if dsAll.isEmpty then none
      else
        let tailLit := fun (k : Nat) =>
          let after := s2.drop k
          let ws2 := after.takeWhile pySpace
          if ws2.isEmpty then false
          else (matchLitCI lit (after.drop ws2.length)).isSome
        if dsAll.length ≥ 2 && tailLit 2 then some (ls ++ ws ++ s2.take 2)
        else if tailLit 1 then some (ls ++ ws ++ s2.take 1)
        else none

/-- `move[-\s]in\s+([A-Za-z]+\s+\d{1,2})` (case-insensitive) at the head. -/
def tryMoveInAt (s : List Char) : Option (List Char) :=
  match matchLitCI ("move".data) s with
  | none => none
  | some (_, s1) =>
    match s1 with
    | [] => none
    | c :: s2 =>
      if c == '-' || pySpace c then
        match matchLitCI ("in".data) s2 with
        | none => none
        | some (_, s3) =>
          let ws := s3.takeWhile pySpace
          if ws.isEmpty then none
          else
            match matchMonthDay (s3.drop ws.length) with
            | none => none
            | some (g, _) => some g
      else none

/-- `(?:\s*-\s*\d+)?` at the head: the number of characters consumed when
the optional unit suffix matches. -/
def tryUnitAt (s : List Char) : Option Nat :=
  let w1 := s.takeWhile pySpace
  match s.drop w1.length with
  | '-' :: s2 =>
    let w2 := s2.takeWhile pySpace
    let ds := (s2.drop w2.length).takeWhile Char.isDigit
    if ds.isEmpty then none else some (w1.length + 1 + w2.length + ds.length)
  | _ => none

/-- Suffix tail of an address pattern at the head: the suffix alternation,
then optionally `\s+⟨direction⟩`, then optionally the unit group.  Returns
characters consumed.  (Within each alternation used here at most one
alternative can match at a given position, or the earlier alternative is
the longer one, so first-match-in-order is the engine's choice.) -/
def trySfxTailAt (sfx : List (List Char)) (dirs : List (List Char)) (withUnit : Bool)
    (s : List Char) : Option Nat :=
  match matchAltsCI sfx s with
  | none => none
  | some (m, rest) =>
    if dirs.isEmpty then
      let base := m.length
      if withUnit then
        match tryUnitAt rest with
        | some u => some (base + u)
        | none => some base
      else some base
    else
      let w := rest.takeWhile pySpace
      if w.isEmpty then none
      else
        match matchAltsCI dirs (rest.drop w.length) with
        | none => none
        | some (d, rest2) =>
          let base := m.length + w.length + d.length
          if withUnit then
            match tryUnitAt rest2 with
            | some u => some (base + u)
            | none => some base
          else some base

/-- Greedy `[\w\s]+` before a suffix tail: try the largest body
consumption first (the engine's backtracking order), at least one body
character.  Returns total characters consumed from `s`. -/
def tryBodySfxGo (sfx : List (List Char)) (dirs : List (List Char)) (withUnit : Bool)
    (s : List Char) : Nat → Option Nat
  | 0 => none
  | k + 1 =>
    match trySfxTailAt sfx dirs withUnit (s.drop (k + 1)) with
    | some t => some (k + 1 + t)
    | none => tryBodySfxGo sfx dirs withUnit s k

/-- `[\w\s]+(?:⟨sfx⟩)...` at the head. -/
def tryBodySfxAt (sfx : List (List Char)) (dirs : List (List Char)) (withUnit : Bool)
    (s : List Char) : Option Nat :=
  tryBodySfxGo sfx dirs withUnit s (s.takeWhile isWordSpace).length

/-- `\d+\s+[\w\s]+(?:⟨sfx⟩)...` at the head.  (`\d+` never usefully
backtracks: giving back a digit leaves a digit, not the required
whitespace, in front.) -/
def tryNumAddrAt (sfx : List (List Char)) (dirs : List (List Char)) (withUnit : Bool)
    (s : List Char) : Option Nat :=
  let ds := s.takeWhile Char.isDigit
  if ds.isEmpty then none
  else
    let s1 := s.drop ds.length
    let ws := s1.takeWhile pySpace
    if ws.isEmpty then none
    else
      match tryBodySfxAt sfx dirs withUnit (s1.drop ws.length) with
      | some n => some (ds.length + ws.length + n)
      | none => none

/-- Suffix alternations of the address patterns. -/
def sfxNamed : List (List Char) :=
  [("oaks".data), ("way".data), ("street".data), ("avenue".data), ("road".data),
   ("drive".data), ("boulevard".data)]

def dirAlts : List (List Char) :=
  [("east".data), ("west".data), ("north".data), ("south".data),
   ("n".data), ("s".data), ("e".data), ("w".data)]

def sfxStd : List (List Char) :=
  [("street".data), ("avenue".data), ("road".data), ("drive".data), ("boulevard".data),
   ("blvd".data), ("st".data), ("ave".data), ("rd".data), ("dr".data)]

/-- `LangChainRentalScraper._extract_complete_address`: the three patterns
in order, then `strip` and whitespace collapse on the winning group. -/
def extractCompleteAddress (ct : List Char) : Option (List Char) :=
  let raw :=
    match scanFirst (fun s => (tryNumAddrAt sfxNamed [] true s).map (fun n => s.take n)) ct with
    | some g => some g
    | none =>
      match scanFirst (fun s => (tryNumAddrAt sfxNamed dirAlts true s).map (fun n => s.take n)) ct with
      | some g => some g
      | none =>
        scanFirst (fun s => (tryNumAddrAt sfxStd [] false s).map (fun n => s.take n)) ct
  raw.map (fun g => collapseWs (pyStrip g))

/-- `,\s*([A-Za-z\s]+),\s*([A-Z]{2})\s*(\d{5})` at the head (no
IGNORECASE).  The leading `\s*` steals as much of the whitespace prefix of
the letters-and-space group as it can while leaving the group non-empty. -/
def tryCityStateAt : List Char → Option (List Char × List Char × List Char)
  | ',' :: rest =>
    let run := rest.takeWhile (fun c => c.isAlpha || pySpace c)
    if run.isEmpty then none
    else
      match rest.drop run.length with
      | ',' :: after =>
        let ws2 := after.takeWhile pySpace
        (match after.drop ws2.length with
         | a :: b :: s4 =>
           if a.isUpper && b.isUpper then
             let ws3 := s4.takeWhile pySpace
             let ds := (s4.drop ws3.length).takeWhile Char.isDigit
             if ds.length ≥ 5 then
               let j := min (run.takeWhile pySpace).length (run.length - 1)
               some (run.drop j, [a, b], ds.take 5)
             else none
           else none
         | _ => none)
      | _ => none
  | _ => none

def typeAlts : List (List Char) :=
  [("apartment".data), ("condo".data), ("house".data), ("townhouse".data), ("studio".data)]

/-- `\b(apartment|condo|house|townhouse|studio)\b` (case-insensitive):
scan tracking whether the previous character was a word character; the
alternatives have pairwise distinct first letters, so at most one can
match at a position. -/
def searchTypeGo : Bool → List Char → Option (List Char)
  | _, [] => none
  | prevWord, c :: rest =>
    let here :=
      if prevWord then none
      else
        match matchAltsCI typeAlts (c :: rest) with
        | some (m, r2) =>
          (match r2 with
           | [] => some m
           | c2 :: _ => if isWordChar c2 then none else some m)
        | none => none
    match here with
    | some m => some m
    | none => searchTypeGo (isWordChar c) rest

def searchType (s : List Char) : Option (List Char) := searchTypeGo false s

/-- Python `str.title()`: upper-case a letter not preceded by a letter,
lower-case the rest. -/
def pyTitleGo : Bool → List Char → List Char
  | _, [] => []
  | prevAlpha, c :: rest =>
    (if c.isAlpha then (if prevAlpha then c.toLower else c.toUpper) else c) ::
      pyTitleGo c.isAlpha rest

def pyTitle (s : List Char) : List Char := pyTitleGo false s

/-- Python `str.split(sep)` for a single-character separator, keeping
empty parts. -/
def splitOnChar (sep : Char) : List Char → List (List Char)
  | [] => [[]]
  | c :: rest =>
    if c == sep then [] :: splitOnChar sep rest
    else
      match splitOnChar sep rest with
      | [] => [[c]]
      | h :: t => (c :: h) :: t

/-- `x[:n] + '...' if len(x) > n else x`. -/
def truncAt (n : Nat) (s : List Char) : List Char :=
  if s.length > n then s.take n ++ ("...".data) else s

/-- `(?:⟨alts⟩)[^\.]+\.` at the head (case-insensitive): an alternative,
at least one non-period character, then the first period. -/
def tryDescAt (alts : List (List Char)) (s : List Char) : Option (List Char) :=
  match matchAltsCI alts s with
  | none => none
  | some (m, rest) =>
    let run := rest.takeWhile (fun c => c != '.')
    if run.isEmpty then none
    else
      match rest.drop run.length with
      | '.' :: _ => some (m ++ run ++ ['.'])
      | _ => none

def descAlts1 : List (List Char) :=
  [("this".data), ("newly remodeled".data), ("available".data)]

def descAlts2 : List (List Char) :=
  [("bedroom".data), ("bathroom".data), ("condo".data), ("apartment".data), ("home".data)]

def descAlts3 : List (List Char) :=
  [("features".data), ("residents have access to".data)]

def descKeywords : List (List Char) :=
  [("bed".data), ("bath".data), ("sq ft".data), ("available".data)]

/-- `LangChainRentalScraper._create_clean_description`. -/
def createCleanDescription (ct : List Char) : List Char :=
  let hit :=
    match scanFirst (tryDescAt descAlts1) ct with
    | some d => some d
    | none =>
      match scanFirst (tryDescAt descAlts2) ct with
      | some d => some d
      | none => scanFirst (tryDescAt descAlts3) ct
  match hit with
  | some d => truncAt 300 (collapseWs (pyStrip d))
  | none =>
    let sentences := splitOnChar '.' ct
    match sentences.find? (fun sen =>
        (pyStrip sen).length > 20 && descKeywords.any (fun k => subIn k (pyLower sen))) with
    | some sen => truncAt 300 (pyStrip sen)
    | none => truncAt 200 ct

/-- A candidate record as built by the LangChain extractor; a missing dict
key is `none`. -/
structure CandidateRec where
  price : Option String := none
  bedrooms : Option Nat := none
  bathrooms : Option Nat := none
  square_feet : Option String := none
  available_date : Option String := none
  address : Option String := none
  city : Option String := none
  state : Option String := none
  zip_code : Option String := none
  property_type : Option String := none
  description : Option String := none
  title : Option String := none
deriving DecidableEq, Repr

/-- `len(rental)` on the candidate dict. -/
def fieldCount (r : CandidateRec) : Nat :=
  (if r.price.isSome then 1 else 0) + (if r.bedrooms.isSome then 1 else 0) +
  (if r.bathrooms.isSome then 1 else 0) + (if r.square_feet.isSome then 1 else 0) +
  (if r.available_date.isSome then 1 else 0) + (if r.address.isSome then 1 else 0) +
  (if r.city.isSome then 1 else 0) + (if r.state.isSome then 1 else 0) +
  (if r.zip_code.isSome then 1 else 0) + (if r.property_type.isSome then 1 else 0) +
  (if r.description.isSome then 1 else 0) + (if r.title.isSome then 1 else 0)

def natOfDigits (ds : List Char) : Nat :=
  ds.foldl (fun n c => n * 10 + (c.toNat - 48)) 0

/-- Token tests of the bedroom/bathroom patterns.  The LangChain patterns
`(?:Bed|bed|BR|br)` and `(?:Bath|bath|BA|ba)` carry no IGNORECASE flag. -/
def lcBedHit (s : List Char) : Bool :=
  (matchAltsCS [("Bed".data), ("bed".data), ("BR".data), ("br".data)] s).isSome

def lcBathHit (s : List Char) : Bool :=
  (matchAltsCS [("Bath".data), ("bath".data), ("BA".data), ("ba".data)] s).isSome

/-- The availability-date search of the LangChain extractor.  Patterns 2
and 3 of the source (`AVAILABLE\s+([A-ZA-Z]+\s+\d{1,2})`,
`available\s+(...)`) coincide with pattern 1 under `re.IGNORECASE`, so
the loop reduces to pattern 1 followed by pattern 4. -/
def availLC (ct : List Char) : Option (List Char) :=
  match scanFirst (tryLeadDateAt ("available".data) false) ct with
  | some g => some g
  | none => scanFirst (tryDateBeforeAt ("available".data)) ct

def boilerplatePhrases : List String :=
  ["resident sign in", "email address", "password", "system"]

/-- The office/portal boilerplate test of `_extract_single_rental`,
applied to the generated description. -/
def isBoilerplate (desc : String) : Bool :=
  boilerplatePhrases.any (fun p => strIn p (lowerStr desc))

/-- `LangChainRentalScraper._extract_single_rental`.  Returns `none` for
the `{}` (falsy) result. -/
def extractSingleRental (text : String) : Option CandidateRec :=
  let ct := (cleanText text).data
  let cst := scanFirst tryCityStateAt ct
  let addr := (extractCompleteAddress ct).map (fun g => String.mk g)
  let desc := String.mk (createCleanDescription ct)
  let r : CandidateRec :=
    { price := (trySearchPrice ct).map (fun run => String.mk ('$' :: run))
      bedrooms := (scanFirst (tryNumTokAt lcBedHit) ct).map natOfDigits
      bathrooms := (scanFirst (tryNumTokAt lcBathHit) ct).map natOfDigits
      square_feet := (scanFirst trySqftAt ct).map (fun ds => String.mk (ds ++ (" sq ft".data)))
      available_date := (availLC ct).map (fun g => String.mk (pyStrip g))
      address := addr
      city := cst.map (fun t => String.mk (pyStrip t.1))
      state := cst.map (fun t => String.mk (pyStrip t.2.1))
      zip_code := cst.map (fun t => String.mk (pyStrip t.2.2))
      property_type := (searchType ct).map (fun m => String.mk (pyTitle m))
      description := some desc
      title := some (addr.getD ("Rental Property")) }
  if isBoilerplate desc then none else some r

/-! ## `_extract_rentals_from_text` and the strategy chain -/

/-- `$` of the lookaheads under `re.DOTALL` (no MULTILINE): end of input,
or just before a final newline. -/
def dollarEnd (s : List Char) : Bool := s.isEmpty || s == ['\n']

/-- Lazy `[^$]*?` before a zero-width lookahead `look`: the smallest
extension whose endpoint satisfies `look`, never stepping over a `$`. -/
def lazyFindGo (look : List Char → Bool) : Nat → List Char → Option Nat
  | q, [] => if look [] then some q else none
  | q, c :: rest =>
    if look (c :: rest) then some q
    else if c == '$' then none else lazyFindGo look (q + 1) rest

/-- The head of `rental_patterns[0]`:
`\d+\s+[\w\s]+(?:Oaks|Way|Street|Avenue|Road|Drive|Boulevard)` with full
backtracking between the greedy body and the lazy tail.  Returns total
characters consumed (prefix plus lazy part; the lookahead is zero-width). -/
def tryP1Go (tail : List Char) (lead : Nat) : Nat → Option Nat
  | 0 => none
  | k + 1 =>
    match matchAltsCI sfxNamed (tail.drop (k + 1)) with
    | some (m, rest) =>
      let look := fun (rem : List Char) => (tryNumAddrAt sfxNamed [] false rem).isSome || dollarEnd rem
      (match lazyFindGo look 0 rest with
       | some q => some (lead + k + 1 + m.length + q)
       | none => tryP1Go tail lead k)
    | none => tryP1Go tail lead k

def tryP1At (s : List Char) : Option Nat :=
  let ds := s.takeWhile Char.isDigit
  if ds.isEmpty then none
  else
    let s1 := s.drop ds.length
    let ws := s1.takeWhile pySpace
    if ws.isEmpty then none
    else
      let tail := s1.drop ws.length
      tryP1Go tail (ds.length + ws.length) (tail.takeWhile isWordSpace).length

/-- Head of the lookahead of `rental_patterns[1]`: `\$\d+(?:,\d+)?`. -/
def dollarNum (s : List Char) : Bool :=
  match s with
  | '$' :: c :: _ => c.isDigit
  | _ => false

/-- `rental_patterns[1]`: `(\$\d+(?:,\d+)?[^$]*?)(?=\$\d+(?:,\d+)?|$)`.
The greedy prefix cannot contain `$` past its first character, so the
lazy search from the maximal prefix explores exactly the feasible
endpoints and prefix backtracking is redundant. -/
def tryP2At (s : List Char) : Option Nat :=
  match s with
  | '$' :: rest =>
    let ds := rest.takeWhile Char.isDigit
    if ds.isEmpty then none
    else
      let afterDs := rest.drop ds.length
      let optLen :=
        match afterDs with
        | ',' :: t =>
          let ds2 := t.takeWhile Char.isDigit
          if ds2.isEmpty then 0 else 1 + ds2.length
        | _ => 0
      let preLen := 1 + ds.length + optLen
      let look := fun (rem : List Char) => dollarNum rem || dollarEnd rem
      (match lazyFindGo look 0 (s.drop preLen) with
       | some q => some (preLen + q)
       | none => none)
  | _ => none

/-- Head of `rental_patterns[2]` under IGNORECASE:
`\d+\s*(?:Bed|Bath|bed|bath)` reduces to the case-insensitive
alternation bed|bath. -/
def tryBBAt (s : List Char) : Option Nat :=
  let ds := s.takeWhile Char.isDigit
  if ds.isEmpty then none
  else
    let s1 := s.drop ds.length
    let ws := s1.takeWhile pySpace
    match matchAltsCI [("bed".data), ("bath".data)] (s1.drop ws.length) with
    | some (m, _) => some (ds.length + ws.length + m.length)
    | none => none

def tryP3At (s : List Char) : Option Nat :=
  match tryBBAt s with
  | none => none
  | some n =>
    let look := fun (rem : List Char) => (tryBBAt rem).isSome || dollarEnd rem
    (match lazyFindGo look 0 (s.drop n) with
     | some q => some (n + q)
     | none => none)

/-- `re.findall` for the patterns above: leftmost matches, continuing
after each match end (all matches consume at least one character). -/
def findallGo (tryAt : List Char → Option Nat) : Nat → List Char → List (List Char)
  | 0, _ => []
  | _, [] => []
  | fuel + 1, s =>
    match tryAt s with
    | some n => s.take n :: findallGo tryAt fuel (s.drop n)
    | none =>
      match s with
      | [] => []
      | _ :: rest => findallGo tryAt fuel rest

def findall (tryAt : List Char → Option Nat) (s : List Char) : List (List Char) :=
  findallGo tryAt (s.length + 1) s

/-- Python `str.split(sep)` for a multi-character separator. -/
def findSub (sep : List Char) : List Char → Option Nat
  | [] => if sep.isPrefixOf [] then some 0 else none
  | c :: rest =>
    if sep.isPrefixOf (c :: rest) then some 0 else (findSub sep rest).map (· + 1)

def splitOnSubGo (sep : List Char) : Nat → List Char → List (List Char)
  | 0, s => [s]
  | fuel + 1, s =>
    match findSub sep s with
    | some i => s.take i :: splitOnSubGo sep fuel (s.drop (i + sep.length))
    | none => [s]

def splitOnSub (sep : List Char) (s : List Char) : List (List Char) :=
  splitOnSubGo sep (s.length + 1) s

/-- `LangChainRentalScraper._deduplicate_rentals` identifier:
`f"{location}|{price}|{beds}|{baths}"`. -/
def identifierOf (r : CandidateRec) : String :=
  let location := stripStr ⟨(lowerStr (r.address.getD (""))).data.map
    (fun c => if c == '\n' then ' ' else c)⟩
  let price := r.price.getD ("")
  let beds := match r.bedrooms with | some n => toString n | none => ""
  let baths := match r.bathrooms with | some n => toString n | none => ""
  location ++ "|" ++ price ++ "|" ++ beds ++ "|" ++ baths

/-- The location/price truthiness gate of `_deduplicate_rentals`. -/
def hasDedupSignal (r : CandidateRec) : Bool :=
  let location := stripStr ⟨(lowerStr (r.address.getD (""))).data.map
    (fun c => if c == '\n' then ' ' else c)⟩
  !(location == "" && r.price.getD ("") == "")

def dedupGo (seen : List String) : List CandidateRec → List CandidateRec
  | [] => []
  | r :: rest =>
    if !hasDedupSignal r then dedupGo seen rest
    else
      let idf := identifierOf r
      if seen.contains idf then dedupGo seen rest
      else r :: dedupGo (idf :: seen) rest

/-- `LangChainRentalScraper._deduplicate_rentals`. -/
def dedupRentals (rs : List CandidateRec) : List CandidateRec := dedupGo [] rs

def sectionKeywords : List (List Char) :=
  [("bed".data), ("bath".data), ("sq ft".data), ("$".data), ("available".data)]

/-- `LangChainRentalScraper._extract_rentals_from_text`: the three findall
patterns over the raw text, then the blank-line sections, each block going
through `_extract_single_rental` with the ≥ 4 field gate, then
deduplication. -/
def extractRentalsFromText (text : String) : List CandidateRec :=
  let raw := text.data
  let collect := fun (acc : List CandidateRec) (block : String) =>
    match extractSingleRental block with
    | some rd => if fieldCount rd ≥ 4 then acc ++ [rd] else acc
    | none => acc
  let fromPatterns :=
    ((findall tryP1At raw ++ findall tryP2At raw ++ findall tryP3At raw).foldl
      (fun acc m => if (pyStrip m).length > 50 then collect acc ⟨pyStrip m⟩ else acc) [])
  let withSections :=
    ((splitOnSub ("\n\n".data) raw).foldl
      (fun acc sec =>
        if (pyStrip sec).length > 100 &&
            sectionKeywords.any (fun k => subIn k (pyLower sec)) then
          collect acc ⟨sec⟩
        else acc)
      fromPatterns)
  dedupRentals withSections

/-- The value the LLM chain hands back in `scrape_rentals`
(`isinstance(rentals, list)` / `isinstance(rentals, str)` / other). -/
inductive LLMResp where
  | list (rs : List CandidateRec)
  | str (s : String)
  | other
deriving DecidableEq

/-- Outcome of the model call: an exception, or a returned value. -/
inductive AIOutcome where
  | raised
  | returned (v : LLMResp)
deriving DecidableEq

/-- The decision structure of `LangChainRentalScraper.scrape_rentals`
(lines 156–187) on a fetched page text: `ai = none` models an
unconfigured `rental_parser`; `tryParseList` is the `json.loads` oracle
for string responses, returning the parsed list when the string parses to
a JSON list and `none` otherwise. -/
def scrapeRentalsCore (ai : Option AIOutcome)
    (tryParseList : String → Option (List CandidateRec)) (pageText : String) :
    List CandidateRec :=
  match ai with
  | none => extractRentalsFromText pageText
  | some AIOutcome.raised => extractRentalsFromText pageText
  | some (AIOutcome.returned (LLMResp.list rs)) => rs
  | some (AIOutcome.returned (LLMResp.str s)) =>
    match tryParseList s with
    | some rs => rs
    | none => []
  | some (AIOutcome.returned LLMResp.other) => []

/-! ## The Playwright detail extractor (`playwright_scraper.py`) -/

/-- The details dict of `PlaywrightRentalScraper._extract_rental_details`. -/
structure PwDetails where
  price : Option String := none
  bedrooms : Option String := none
  bathrooms : Option String := none
  sqft : Option String := none
  ptype : Option String := none
  location : Option String := none
  available_date : Option String := none
  title : Option String := none
  description : Option String := none
deriving DecidableEq, Repr

def pwFieldCount (d : PwDetails) : Nat :=
  (if d.price.isSome then 1 else 0) + (if d.bedrooms.isSome then 1 else 0) +
  (if d.bathrooms.isSome then 1 else 0) + (if d.sqft.isSome then 1 else 0) +
  (if d.ptype.isSome then 1 else 0) + (if d.location.isSome then 1 else 0) +
  (if d.available_date.isSome then 1 else 0) + (if d.title.isSome then 1 else 0) +
  (if d.description.isSome then 1 else 0)

def pwSfx : List (List Char) :=
  [("street".data), ("st".data), ("avenue".data), ("ave".data), ("road".data),
   ("rd".data), ("drive".data), ("dr".data), ("blvd".data), ("boulevard".data)]

/-- `[\w\s]+,\s*[A-Z]{2}\s*\d{5}` under IGNORECASE (the class `[A-Z]`
matches any letter): whole-match length at the head. -/
def tryCityStatePwAt (s : List Char) : Option Nat :=
  let run := s.takeWhile isWordSpace
  if run.isEmpty then none
  else
    match s.drop run.length with
    | ',' :: after =>
      let ws2 := after.takeWhile pySpace
      (match after.drop ws2.length with
       | a :: b :: s4 =>
         if a.isAlpha && b.isAlpha then
           let ws3 := s4.takeWhile pySpace
           let ds := (s4.drop ws3.length).takeWhile Char.isDigit
           if ds.length ≥ 5 then
             some (run.length + 1 + ws2.length + 2 + ws3.length + 5)
           else none
         else none
       | _ => none)
    | _ => none

/-- The location search of `_extract_rental_details`: three patterns in
order, `group(0).strip()`. -/
def pwLocation (raw : List Char) : Option (List Char) :=
  let hit :=
    match scanFirst (fun s => (tryNumAddrAt pwSfx [] false s).map (fun n => s.take n)) raw with
    | some g => some g
    | none =>
      match scanFirst (fun s => (tryCityStatePwAt s).map (fun n => s.take n)) raw with
      | some g => some g
      | none =>
        scanFirst (fun s => (tryBodySfxAt sfxNamed [] false s).map (fun n => s.take n)) raw
  hit.map pyStrip

/-- The five availability patterns of `_extract_rental_details`,
`group(1).strip()`. -/
def pwAvail (raw : List Char) : Option (List Char) :=
  let hit :=
    match scanFirst (tryLeadDateAt ("available".data) true) raw with
    | some g => some g
    | none =>
      match scanFirst (tryLeadDateAt ("available".data) false) raw with
      | some g => some g
      | none =>
        match scanFirst (tryDateBeforeAt ("available".data)) raw with
        | some g => some g
        | none =>
          match scanFirst tryMoveInAt raw with
          | some g => some g
          | none => scanFirst (tryLeadDateAt ("ready".data) false) raw
  hit.map pyStrip

def pwBedHit (s : List Char) : Bool :=
  (matchAltsCS [("bed".data), ("br".data), ("bedroom".data)] s).isSome

def pwBathHit (s : List Char) : Bool :=
  (matchAltsCS [("bath".data), ("bathroom".data)] s).isSome

/-- `PlaywrightRentalScraper._extract_rental_details` on the element text:
`none` both for short text and for fewer than two extracted entries. -/
def extractRentalDetails (text : String) : Option PwDetails :=
  if text.data.length < 50 then none
  else
    let raw := text.data
    let low := pyLower raw
    let availBase := (pwAvail raw).map (fun g => String.mk g)
    let avail :=
      if subIn ("immediate".data) low || subIn ("now".data) low then some ("Immediate" : String)
      else availBase
    let lines := splitOnChar '\n' raw
    let firstLine := lines.headD []
    let d : PwDetails :=
      { price := (trySearchPrice raw).map (fun run => String.mk ('$' :: run))
        bedrooms := (scanFirst (tryNumTokAt pwBedHit) low).map (fun ds => String.mk ds)
        bathrooms := (scanFirst (tryNumTokAt pwBathHit) low).map (fun ds => String.mk ds)
        sqft := (scanFirst trySqftAt low).map (fun ds => String.mk (ds ++ (" sq ft".data)))
        ptype := (searchType low).map (fun m => String.mk (pyTitle m))
        location := (pwLocation raw).map (fun g => String.mk g)
        available_date := avail
        title := some (if firstLine.isEmpty then ("Rental Property" : String)
                       else String.mk (firstLine.take 100))
        description := some (String.mk (truncAt 300 raw)) }
    if pwFieldCount d ≥ 2 then some d else none

/-! ## Auxiliary definitions used only by the proofs -/

/-- Decimal digit characters of `n`, most significant first; used to
characterise `Nat.repr` (hence `toString` on the rental-id counter). -/
def decimalChars (n : Nat) : List Char :=
  if n < 10 then [Nat.digitChar n]
  else decimalChars (n / 10) ++ [Nat.digitChar (n % 10)]
decreasing_by exact Nat.div_lt_self (by omega) (by omega)

/-- Valuation inverse to `decimalChars`. -/
def decimalVal (l : List Char) : Nat :=
  l.foldl (fun a c => a * 10 + (c.toNat - 48)) 0

/-- The address identity rule as the specification words it: lower-cased,
trimmed, and *internal whitespace collapsed*.  (The source normalises with
`lower().strip()` only; this definition exists to state how the two
rules differ.) -/
def specNormalizeAddr (s : String) : String :=
  ⟨collapseWs (pyStrip (pyLower s.data))⟩

/-- The address component used in a stored listing's identity. -/
def addrKey (rd : RentalData) : String := normAddr (rd.address.getD (""))

/-- Invariant of the durable store while `sync_rentals` processes a site
whose rental dict started empty: `P` is the prefix of the batch already
handed to `add_rental`.  Every stored entry is keyed by its own id,
belongs to the site, carries an address whose identity key occurs in `P`;
identity keys of stored entries are pairwise distinct; every processed
record has a stored entry with its identity key; the site partition
exists once anything is stored; and ids follow the
`⟨site⟩_⟨counter⟩` shape with counters bounded by the store size. -/
def SiteInv (clean : String) (P : List RentalData) (st : DB) : Prop :=
  (∀ kv ∈ st.rentals, kv.1 = kv.2.id ∧ kv.2.website = clean ∧
      kv.2.data.address.isSome = true ∧ ∃ rd ∈ P, addrKey kv.2.data = addrKey rd) ∧
  (st.rentals.map (fun kv => addrKey kv.2.data)).Nodup ∧
  (∀ rd ∈ P, ∃ kv ∈ st.rentals, addrKey kv.2.data = addrKey rd) ∧
  ((dictFind clean st.websites).isSome = true ∨ st.rentals = []) ∧
  (∀ kv ∈ st.rentals, ∃ j : Nat, 1 ≤ j ∧ j ≤ st.rentals.length ∧
      kv.1 = clean ++ "_" ++ toString j)

/-! ## Concrete fixtures used by counterexamples and witnesses -/

def exSite : String := "example.com"

def exR : RentalData := { address := some ("123 main st"), price := some ("1000") }

def exA : RentalData := { address := some ("1 ash ln"), price := some ("800") }

def exB : RentalData := { address := some ("2 birch ln"), price := some ("850") }

def exC : RentalData := { address := some ("3 cedar ln"), price := some ("900") }

/-- `exA` re-observed with a changed tracked field (price). -/
def exA2 : RentalData := { address := some ("1 ash ln"), price := some ("810") }

/-- `exC` re-observed with a changed tracked field (price). -/
def exC2 : RentalData := { address := some ("3 cedar ln"), price := some ("910") }

/-- A text block containing both an availability date and "immediate". -/
def exT7 : String :=
  "Charming 2 bed 1 bath unit with parking Available July 15 immediate move in for qualified applicants please contact the office for details"

/-- A Playwright element text (≥ 50 chars) containing "immediate". -/
def exT7w : String := "Spacious condo with 2 bed and 1 bath immediate move in ready for you today"

/-- A block containing the phrase "resident sign in" whose derived clean
description does not. -/
def exT8 : String :=
  "2 bed 1 bath unit for $900 per month. This home is a quiet corner unit with parking. resident sign in email address password system"

/-- A block whose derived clean description does contain the phrase. -/
def exT8w : String :=
  "resident sign in email address password system 2 bed 1 bath unit with parking and modern appliances included"

/-- A page text from which the deterministic pattern strategies extract a
record. -/
def exT9 : String :=
  "Nice apartment rental with 800 sq ft of living space available July 15 offering comfy modern living for $700 monthly in a calm community"

/-! # Theorems -/

/-! ## `toString` on `Nat` is injective (rental-id freshness) -/

theorem toDigitsCore_eq_decimalChars (fuel : Nat) :
    ∀ (n : Nat) (acc : List Char), n < fuel →
      Nat.toDigitsCore 10 fuel n acc = decimalChars n ++ acc := by
  induction fuel with
  | zero => intro n acc h; omega
  | succ fuel ih =>
    intro n acc h
    simp only [Nat.toDigitsCore]
    by_cases h10 : n / 10 = 0
    · have hn : n < 10 := by omega
      rw [if_pos h10, decimalChars, if_pos hn, Nat.mod_eq_of_lt hn]
      rfl
    · have hn : ¬ n < 10 := fun hc => h10 (Nat.div_eq_of_lt hc)
      rw [if_neg h10, ih (n / 10) _ (by
        have := Nat.div_lt_self (show 0 < n by omega) (show 1 < 10 by omega)
        omega)]
      conv_rhs => rw [decimalChars, if_neg hn]
      simp

theorem repr_eq_decimalChars (n : Nat) : (Nat.repr n).data = decimalChars n := by
  rw [Nat.repr, Nat.toDigits, toDigitsCore_eq_decimalChars (n + 1) n [] (by omega)]
  simp [List.asString]

theorem decimalVal_decimalChars (n : Nat) : decimalVal (decimalChars n) = n := by
  induction n using Nat.strong_induction_on with
  | _ n ih =>
    by_cases h : n < 10
    · rw [decimalChars, if_pos h]
      interval_cases n <;> decide
    · rw [decimalChars, if_neg h]
      have hdiv : n / 10 < n := Nat.div_lt_self (by omega) (by omega)
      have hv := ih (n / 10) hdiv
      have hm : n % 10 < 10 := Nat.mod_lt _ (by omega)
      have hchar : (Nat.digitChar (n % 10)).toNat - 48 = n % 10 := by
        interval_cases h : n % 10 <;> decide
      calc decimalVal (decimalChars (n / 10) ++ [Nat.digitChar (n % 10)])
          = decimalVal (decimalChars (n / 10)) * 10 + ((Nat.digitChar (n % 10)).toNat - 48) := by
            simp [decimalVal, List.foldl_append]
        _ = n := by rw [hv, hchar]; omega

theorem natToString_injective {m n : Nat} (h : toString m = toString n) : m = n := by
  have hm : (Nat.repr m).data = (Nat.repr n).data := by
    simpa [toString] using congrArg String.data h
  rw [repr_eq_decimalChars, repr_eq_decimalChars] at hm
  have := congrArg decimalVal hm
  rwa [decimalVal_decimalChars, decimalVal_decimalChars] at this

/-! ## Dictionary and search helper lemmas -/

theorem dictFind_dictSet_self {α : Type} (k : String) (v : α) (l : List (String × α)) :
    dictFind k (dictSet k v l) = some v := by
  induction l with
  | nil => simp [dictSet, dictFind]
  | cons kv t ih =>
    obtain ⟨k', v'⟩ := kv
    by_cases h : k' == k
    · simp [dictSet, dictFind, h]
    · simp only [dictSet, dictFind, h, Bool.false_eq_true, if_false, ih]

theorem dictFind_dictModify_self {α : Type} (k : String) (f : α → α)
    (l : List (String × α)) : dictFind k (dictModify k f l) = (dictFind k l).map f := by
  induction l with
  | nil => simp [dictModify, dictFind]
  | cons kv t ih =>
    obtain ⟨k', v'⟩ := kv
    by_cases h : k' == k
    · simp [dictModify, dictFind, h]
    · simp only [dictModify, dictFind, h, Bool.false_eq_true, if_false, ih]

theorem dictSet_of_fresh {α : Type} (k : String) (v : α) (l : List (String × α))
    (h : ∀ kv ∈ l, kv.1 ≠ k) : dictSet k v l = l ++ [(k, v)] := by
  induction l with
  | nil => simp [dictSet]
  | cons kv t ih =>
    obtain ⟨k', v'⟩ := kv
    have hne : k' ≠ k := h (k', v') (by simp)
    simp only [dictSet, beq_iff_eq, hne, if_false, List.cons_append, List.cons.injEq, true_and]
    exact ih (fun kv hkv => h kv (by simp [hkv]))

theorem mem_of_isPrefixOf {pat s : List Char} (h : pat.isPrefixOf s = true) {c : Char}
    (hc : c ∈ pat) : c ∈ s := by
  induction pat generalizing s with
  | nil => simp at hc
  | cons a as ih =>
    cases s with
    | nil => simp [List.isPrefixOf] at h
    | cons b bs =>
      simp only [List.isPrefixOf, Bool.and_eq_true, beq_iff_eq] at h
      obtain ⟨rfl, h2⟩ := h
      rcases List.mem_cons.mp hc with rfl | hmem
      · exact List.mem_cons_self _ _
      · exact List.mem_cons_of_mem _ (ih h2 hmem)

theorem not_isPrefixOf_of_mem_not_mem {pat s : List Char} {c : Char}
    (hc : c ∈ pat) (hs : c ∉ s) : pat.isPrefixOf s = false := by
  cases hps : pat.isPrefixOf s
  · rfl
  · exact absurd (mem_of_isPrefixOf hps hc) hs

theorem pyRemoveAllGo_of_no_occurrence {pat : List Char} {c : Char} (hc : c ∈ pat)
    (fuel : Nat) : ∀ {s : List Char}, c ∉ s → pyRemoveAllGo pat fuel s = s := by
  induction fuel with
  | zero => intro s _; cases s <;> rfl
  | succ fuel ih =>
    intro s hs
    cases s with
    | nil => rfl
    | cons b bs =>
      rw [pyRemoveAllGo, not_isPrefixOf_of_mem_not_mem hc hs]
      simp only [Bool.false_and, Bool.false_eq_true, if_false, List.cons.injEq, true_and]
      exact ih (fun hm => hs (by simp [hm]))

theorem pyRemoveAll_of_no_occurrence {pat : List Char} {c : Char} (hc : c ∈ pat)
    {s : List Char} (hs : c ∉ s) : pyRemoveAll pat s = s :=
  pyRemoveAllGo_of_no_occurrence hc _ hs

theorem cleanWebsite_no_slash (w : String) : '/' ∉ (cleanWebsite w).data := by
  intro hmem
  have := List.mem_takeWhile_imp hmem
  simp at this

set_option maxRecDepth 1000000

theorem cleanWebsite_idem (w : String) : cleanWebsite (cleanWebsite w) = cleanWebsite w := by
  have hns := cleanWebsite_no_slash w
  have h1 : pyRemoveAll httpsPat (cleanWebsite w).data = (cleanWebsite w).data :=
    pyRemoveAll_of_no_occurrence (by decide) hns
  have h2 : pyRemoveAll httpPat (cleanWebsite w).data = (cleanWebsite w).data :=
    pyRemoveAll_of_no_occurrence (by decide) hns
  show (⟨((pyRemoveAll httpPat (pyRemoveAll httpsPat (cleanWebsite w).data)).takeWhile
    (fun c => c != '/'))⟩ : String) = cleanWebsite w
  rw [h1, h2, List.takeWhile_eq_self_iff.mpr (fun c hc => by
    simp only [bne_iff_ne, ne_eq]
    rintro rfl
    exact hns hc)]

/-! ## Claim C10 -/

/-- Claim C10: the store normalizes its site argument identically in reads
and writes (scheme and path stripped, host kept); for every website string
`w`, reading under `w`, reading under the normalized host of `w`, and the
partition written by `add_rental`/`sync_rentals` for `w` all refer to the
same site partition and return the same listings. -/
theorem c10_site_key_normalization (db : DB) (w : String) :
    getRentalsForWebsite db w = getRentalsForWebsite db (cleanWebsite w) ∧
    cleanWebsite (cleanWebsite w) = cleanWebsite w ∧
    (∀ (now : Nat) (rd : RentalData),
      getRentalsForWebsite (addRental now db w rd).1 w =
        getRentalsForWebsite (addRental now db w rd).1 (cleanWebsite w)) ∧
    (∀ (now : Nat) (batch : List RentalData),
      getRentalsForWebsite (syncRentals now db w batch).1 w =
        getRentalsForWebsite (syncRentals now db w batch).1 (cleanWebsite w)) := by
  have hidem := cleanWebsite_idem w
  have hget : ∀ d : DB, getRentalsForWebsite d w = getRentalsForWebsite d (cleanWebsite w) := by
    intro d
    unfold getRentalsForWebsite
    rw [hidem]
  exact ⟨hget db, hidem, fun _ _ => hget _, fun _ _ => hget _⟩

/-! ## Claim C1: counterexample -/

/-- Claim C1 is false as stated: re-running `sync` with the identical
one-element batch returns `(1, 0)` — the first component is
`len(current_rentals)`, not an update count — and not `(0, 0)`. -/
theorem c1_counterexample :
    (syncRentals 1 (syncRentals 0 emptyDB exSite [exR]).1 exSite [exR]).2 = (1, 0) ∧
    ((1, 0) : Nat × Nat) ≠ (0, 0) := by
  constructor
  · decide
  · decide

/-! ## Claim C3: the code drops the re-observed data -/

/-- Claim C3 names the failing behaviour: with stored listings
{`exA`, `exB`, `exC`} and batch `[exA2, exC2]` (A and C re-observed with
changed prices, B absent), `sync` does delete B and leaves exactly two
listings, but the stored data is the pre-sync data (prices "800"/"900"),
not the observed "810"/"910": the update branch of `add_rental` mutates an
orphan copy from its own `load_data()`, and the removal phase saves the
stale pre-add snapshot. -/
theorem c3_code_bug_evaluation :
    (getRentalsForWebsite
        (syncRentals 5 (syncRentals 0 emptyDB exSite [exA, exB, exC]).1 exSite
          [exA2, exC2]).1 exSite).map (fun r => r.data.price) =
      [some ("800"), some ("900")] ∧
    (getRentalsForWebsite
        (syncRentals 5 (syncRentals 0 emptyDB exSite [exA, exB, exC]).1 exSite
          [exA2, exC2]).1 exSite).length = 2 ∧
    (syncRentals 5 (syncRentals 0 emptyDB exSite [exA, exB, exC]).1 exSite
        [exA2, exC2]).2 = (2, 1) := by
  refine ⟨by decide, by decide, by decide⟩

/-! ## Claim C4 -/

/-- Claim C4 is false as stated: after `add_rental` inserts one listing
(`rental_count = 1`), a `sync_rentals` with an empty batch removes the
listing but leaves the site's `rental_count` at 1 and `last_scraped`
untouched, while the actual per-site listing count is 0. -/
theorem c4_counterexample :
    dictFind (cleanWebsite exSite)
        ((syncRentals 1 (addRental 0 emptyDB exSite exR).1 exSite []).1).websites =
      some { url := exSite, last_scraped := some 0, rental_count := 1 } ∧
    countSite (cleanWebsite exSite)
        ((syncRentals 1 (addRental 0 emptyDB exSite exR).1 exSite []).1).rentals = 0 := by
  constructor
  · decide
  · decide

/-- Claim C4 amended: the bookkeeping equality holds exactly at the point
an `add_rental` call inserts a new listing — the inserting branch recounts
the site's listings and stamps `last_scraped` — while the removal phase of
`sync_rentals` and `clear_old_data` never touch the site partition, so
removals break the equality (see the counterexample). -/
theorem c4_amended (now : Nat) (store : DB) (w : String) (rd : RentalData)
    (h : findExistingRental store (cleanWebsite w) rd = none) :
    ∃ info : SiteInfo,
      dictFind (cleanWebsite w) (addRental now store w rd).1.websites = some info ∧
      info.rental_count = countSite (cleanWebsite w) (addRental now store w rd).1.rentals ∧
      info.last_scraped = some now := by
  simp only [addRental, h]
  by_cases hw : (dictFind (cleanWebsite w) store.websites).isSome
  · rw [if_pos hw]
    obtain ⟨info0, hinfo0⟩ := Option.isSome_iff_exists.mp hw
    rw [dictFind_dictModify_self, hinfo0]
    exact ⟨_, rfl, rfl, rfl⟩
  · rw [if_neg hw]
    rw [dictFind_dictModify_self, dictFind_dictSet_self]
    exact ⟨_, rfl, rfl, rfl⟩

theorem c4_amended_witness :
    findExistingRental emptyDB (cleanWebsite exSite) exR = none ∧
    ∃ info : SiteInfo,
      dictFind (cleanWebsite exSite) (addRental 0 emptyDB exSite exR).1.websites = some info ∧
      info.rental_count = countSite (cleanWebsite exSite) (addRental 0 emptyDB exSite exR).1.rentals ∧
      info.last_scraped = some 0 :=
  ⟨by decide, c4_amended 0 emptyDB exSite exR (by decide)⟩

/-! ## Claim C5 -/

/-- Claim C5 is false as stated: ids are derived from the current global
rental count, so after a removal the same id is handed to a different
listing — here `exA` receives "example.com_1", is removed by an
empty-batch sync, and then `exB` (a different listing) also receives
"example.com_1". -/
theorem c5_counterexample :
    (addRental 0 emptyDB exSite exA).2 = "example.com_1" ∧
    (addRental 2 (syncRentals 1 (addRental 0 emptyDB exSite exA).1 exSite []).1
        exSite exB).2 = "example.com_1" ∧
    exA ≠ exB := by
  refine ⟨by decide, by decide, by decide⟩

/-- Claim C5 amended: a new listing's id is
`⟨site⟩_⟨total stored rentals across all sites + 1⟩`, assigned at
insertion; a matched record returns the existing listing's id and the
stored rentals (hence every existing id) are left unchanged.  Nothing
prevents an id freed by a removal from being assigned again (see the
counterexample). -/
theorem c5_amended (now : Nat) (store : DB) (w : String) (rd : RentalData) :
    (findExistingRental store (cleanWebsite w) rd = none →
      (addRental now store w rd).2 =
        cleanWebsite w ++ "_" ++ toString (store.rentals.length + 1)) ∧
    (∀ r : Rental, findExistingRental store (cleanWebsite w) rd = some r →
      (addRental now store w rd).2 = r.id ∧
      (addRental now store w rd).1.rentals = store.rentals) := by
  constructor
  · intro h
    simp only [addRental, h]
  · intro r h
    simp only [addRental, h]
    by_cases hch : hasDataChanged r.data rd
    · rw [if_pos hch]
      constructor
      · rfl
      · by_cases hw : (dictFind (cleanWebsite w) store.websites).isSome
        · rw [if_pos hw]
        · rw [if_neg hw]
    · rw [if_neg hch]
      exact ⟨rfl, rfl⟩

theorem c5_amended_witness :
    findExistingRental emptyDB (cleanWebsite exSite) exA = none ∧
    (addRental 0 emptyDB exSite exA).2 =
      cleanWebsite exSite ++ "_" ++ toString (emptyDB.rentals.length + 1) :=
  ⟨by decide, (c5_amended 0 emptyDB exSite exA).1 (by decide)⟩

/-! ## Claim C2 -/

/-- Claim C2 is false as stated: during a sync of a two-record batch into
an empty store, one of the durable states that an interruption can expose
(the store after the first `add_rental`, which `save_data`d) is neither
the pre-sync state nor the post-sync state. -/
theorem c2_counterexample :
    ∃ s ∈ syncDurableStates 0 emptyDB exSite [exA, exB],
      s ≠ emptyDB ∧ s ≠ (syncRentals 0 emptyDB exSite [exA, exB]).1 := by
  decide

theorem addStates_length (now : Nat) (w : String) :
    ∀ (batch : List RentalData) (store : DB),
      (addStates now w batch store).length = batch.length := by
  intro batch
  induction batch with
  | nil => intro store; rfl
  | cons rd t ih => intro store; simp [addStates, ih]

theorem addStates_get (now : Nat) (w : String) :
    ∀ (batch : List RentalData) (store : DB) (k : Nat), k < batch.length →
      (addStates now w batch store).get? k =
        some (applyAdds now w (batch.take (k + 1)) store) := by
  intro batch
  induction batch with
  | nil => intro store k hk; simp at hk
  | cons rd t ih =>
    intro store k hk
    cases k with
    | zero => simp [addStates, applyAdds]
    | succ k =>
      simp only [addStates, List.get?_cons_succ, List.take_succ_cons]
      rw [ih _ k (by simpa using hk)]
      simp [applyAdds]

/-- Claim C2 amended: `sync_rentals` is not atomic — every `add_rental`
call persists immediately, so the durable state after the `k`-th call of
the add phase is the store with only the first `k + 1` batch records
applied; an exception mid-reconciliation leaves exactly such a partial
state behind (and the removal phase then saves a stale pre-add snapshot). -/
theorem c2_amended (now : Nat) (store : DB) (w : String) (batch : List RentalData)
    (k : Nat) (hk : k < batch.length) :
    (syncDurableStates now store w batch).get? k =
      some (applyAdds now w (batch.take (k + 1)) store) := by
  unfold syncDurableStates
  rw [List.get?_append (by rw [addStates_length]; exact hk)]
  exact addStates_get now w batch store k hk

theorem c2_amended_witness :
    0 < ([exA, exB] : List RentalData).length ∧
    (syncDurableStates 0 emptyDB exSite [exA, exB]).get? 0 =
      some (applyAdds 0 exSite ([exA, exB].take 1) emptyDB) :=
  ⟨by decide, c2_amended 0 emptyDB exSite [exA, exB] 0 (by decide)⟩

/-! ## Claim C6 -/

/-- Claim C6 is false as stated: the source normalizes addresses with
`lower().strip()` only — internal whitespace is *not* collapsed — so two
records whose addresses agree after the specification's normalization but
differ in internal spacing produce two stored listings, not one. -/
theorem c6_counterexample :
    specNormalizeAddr ("12  oak apt") = specNormalizeAddr ("12 oak apt") ∧
    (getRentalsForWebsite
        (syncRentals 0 emptyDB exSite
          [{ address := some ("12  oak apt") }, { address := some ("12 oak apt") }]).1
        exSite).length = 2 := by
  constructor
  · decide
  · decide

theorem mem_dictSet {α : Type} {kv : String × α} {k : String} {v : α}
    {l : List (String × α)} (h : kv ∈ dictSet k v l) : kv = (k, v) ∨ kv ∈ l := by
  induction l with
  | nil => simpa [dictSet] using h
  | cons kv' t ih =>
    obtain ⟨k', v'⟩ := kv'
    by_cases hk : k' == k
    · simp only [dictSet, hk, if_true] at h
      rcases List.mem_cons.mp h with rfl | hmem
      · exact Or.inl rfl
      · exact Or.inr (List.mem_cons_of_mem _ hmem)
    · simp only [dictSet, hk, Bool.false_eq_true, if_false] at h
      rcases List.mem_cons.mp h with rfl | hmem
      · exact Or.inr (List.mem_cons_self _ _)
      · rcases ih hmem with h1 | h2
        · exact Or.inl h1
        · exact Or.inr (List.mem_cons_of_mem _ h2)

theorem self_mem_dictSet {α : Type} (k : String) (v : α) (l : List (String × α)) :
    (k, v) ∈ dictSet k v l := by
  induction l with
  | nil => simp [dictSet]
  | cons kv' t ih =>
    obtain ⟨k', v'⟩ := kv'
    by_cases hk : k' == k
    · simp [dictSet, hk]
    · simp only [dictSet, hk, Bool.false_eq_true, if_false]
      exact List.mem_cons_of_mem _ ih

theorem find?_eq_some_of_unique {α : Type} {p : α → Bool} {l : List α} {x : α}
    (hx : x ∈ l) (hpx : p x = true) (huniq : ∀ y ∈ l, p y = true → y = x) :
    l.find? p = some x := by
  induction l with
  | nil => simp at hx
  | cons a t ih =>
    by_cases hpa : p a = true
    · rw [List.find?_cons_of_pos _ hpa]
      rw [huniq a (List.mem_cons_self _ _) hpa]
    · rw [List.find?_cons_of_neg _ (by simp [hpa])]
      rcases List.mem_cons.mp hx with rfl | hmem
      · exact absurd hpx hpa
      · exact ih hmem (fun y hy hpy => huniq y (List.mem_cons_of_mem _ hy) hpy)

theorem filter_map_dictSet_single {α : Type} {p : α → Bool} (k : String) (v : α)
    (l : List (String × α)) (hall : ∀ kv ∈ l, p kv.2 = false) (hv : p v = true) :
    ((dictSet k v l).map Prod.snd).filter p = [v] := by
  induction l with
  | nil => simp [dictSet, hv]
  | cons kv' t ih =>
    obtain ⟨k', v'⟩ := kv'
    by_cases hk : k' == k
    · simp only [dictSet, hk, if_true, List.map_cons, List.filter_cons, hv]
      have : ∀ x ∈ t.map Prod.snd, ¬ p x = true := by
        intro x hx
        obtain ⟨kv, hkv, rfl⟩ := List.mem_map.mp hx
        simp [hall kv (List.mem_cons_of_mem _ hkv)]
      rw [List.filter_eq_nil.mpr this]
    · simp only [dictSet, hk, Bool.false_eq_true, if_false, List.map_cons, List.filter_cons,
        hall (k', v') (List.mem_cons_self _ _)]
      exact ih (fun kv hkv => hall kv (List.mem_cons_of_mem _ hkv))

/-- Claim C6 amended: address identity uses `lower().strip()` (no internal
whitespace collapse, dedup aside).  Under that normalization identity is
stable: syncing two records with `lower/strip`-equal addresses into a
store with no listings for the site yields exactly one stored listing. -/
theorem c6_amended (now : Nat) (store : DB) (w : String) (r1 r2 : RentalData)
    (a1 a2 : String) (h1 : r1.address = some a1) (h2 : r2.address = some a2)
    (heq : normAddr a1 = normAddr a2)
    (hsite : ∀ kv ∈ store.rentals, kv.2.website ≠ cleanWebsite w) :
    (getRentalsForWebsite (syncRentals now store w [r1, r2]).1 w).length = 1 := by
  have hsiteb : ∀ kv ∈ store.rentals, (kv.2.website == cleanWebsite w) = false := by
    intro kv hkv
    exact beq_eq_false_iff_ne.mpr (hsite kv hkv)
  -- no existing rental of the site can match anything
  have hfindnone : ∀ rdx : RentalData,
      findExistingRental store (cleanWebsite w) rdx = none := by
    intro rdx
    apply List.find?_eq_none.mpr
    intro r hr
    obtain ⟨kv, hkv, rfl⟩ := List.mem_map.mp hr
    simp [hsiteb kv hkv]
  -- the first add inserts a fresh entry
  set rid1 := cleanWebsite w ++ "_" ++ toString (store.rentals.length + 1) with hrid1
  set e1 : Rental :=
    { id := rid1, website := cleanWebsite w, source_url := w,
      scraped_at := now, data := r1 } with he1
  set S1 := (addRental now store w r1).1 with hS1
  have hS1rentals : S1.rentals = dictSet rid1 e1 store.rentals := by
    rw [hS1]
    simp only [addRental, hfindnone r1]
    by_cases hw : (dictFind (cleanWebsite w) store.websites).isSome
    · rw [if_pos hw]
    · rw [if_neg hw]
  have hS1websites : (dictFind (cleanWebsite w) S1.websites).isSome := by
    rw [hS1]
    simp only [addRental, hfindnone r1]
    by_cases hw : (dictFind (cleanWebsite w) store.websites).isSome
    · rw [if_pos hw]
      simp only [dictFind_dictModify_self]
      obtain ⟨info0, hinfo0⟩ := Option.isSome_iff_exists.mp hw
      rw [hinfo0]
      rfl
    · rw [if_neg hw]
      simp only [dictFind_dictModify_self, dictFind_dictSet_self]
      rfl
  -- the second add matches the entry just inserted and leaves the store alone
  have hfind2 : findExistingRental S1 (cleanWebsite w) r2 = some e1 := by
    unfold findExistingRental
    apply find?_eq_some_of_unique
    · rw [hS1rentals]
      exact List.mem_map.mpr ⟨(rid1, e1), self_mem_dictSet _ _ _, rfl⟩
    · simp only [he1, Bool.and_eq_true, beq_self_eq_true, true_and]
      simp only [isSameRental, h1, h2]
      simp [heq]
    · intro y hy hpy
      rw [hS1rentals] at hy
      obtain ⟨kv, hkv, rfl⟩ := List.mem_map.mp hy
      rcases mem_dictSet hkv with h | h
      · rw [h]
      · exfalso
        rw [Bool.and_eq_true] at hpy
        rw [hsiteb kv h] at hpy
        simp at hpy
  have hadd2_fst : (addRental now S1 w r2).1 = S1 := by
    simp only [addRental, hfind2]
    rw [if_pos hS1websites]
    by_cases hch : hasDataChanged e1.data r2
    · rw [if_pos hch]
    · rw [if_neg hch]
  -- the stale `existing` dict is empty, so nothing is removed
  have hexisting : existingOfSite (cleanWebsite w) store.rentals = [] := by
    unfold existingOfSite
    rw [List.filter_eq_nil.mpr (by
      intro r hr
      obtain ⟨kv, hkv, rfl⟩ := List.mem_map.mp hr
      simp [hsiteb kv hkv])]
    rfl
  show (getRentalsForWebsite (syncRentals now store w [r1, r2]).1 w).length = 1
  simp only [syncRentals]
  rw [hexisting]
  simp only [List.foldl_nil, gt_iff_lt, Nat.lt_irrefl, if_false, syncAdds, syncAddsGo]
  rw [← hS1, hadd2_fst]
  simp only [getRentalsForWebsite]
  rw [hS1rentals]
  rw [filter_map_dictSet_single _ _ _ hsiteb (by simp [he1])]
  rfl

theorem c6_amended_witness :
    (({ address := some ("12 oak apt") } : RentalData).address = some ("12 oak apt")) ∧
    (({ address := some ("12 OAK APT  ") } : RentalData).address = some ("12 OAK APT  ")) ∧
    normAddr ("12 oak apt") = normAddr ("12 OAK APT  ") ∧
    (getRentalsForWebsite
        (syncRentals 0 emptyDB exSite
          [{ address := some ("12 oak apt") }, { address := some ("12 OAK APT  ") }]).1
        exSite).length = 1 :=
  ⟨rfl, rfl, by decide,
    c6_amended 0 emptyDB exSite _ _ ("12 oak apt") ("12 OAK APT  ") rfl rfl (by decide)
      (by intro kv hkv; simp [emptyDB] at hkv)⟩

/-! ## Claim C7 -/

/-- Claim C7 is false as stated: the LangChain field extractor
(`_extract_single_rental`, one of the two extractors the claim covers) has
no immediate-availability override at all — a block containing both
"Available July 15" and "immediate" yields `available_date = "July 15"`. -/
theorem c7_counterexample :
    strIn ("immediate") (lowerStr exT7) = true ∧
    (extractSingleRental exT7).map (fun r => r.available_date) = some (some ("July 15")) ∧
    (("July 15" : String) ≠ ("Immediate" : String)) := by
  refine ⟨by decide, by decide, by decide⟩

theorem pwFieldCount_ge_two_of_avail_title {d : PwDetails}
    (h : d.available_date.isSome = true) (ht : d.title.isSome = true) :
    2 ≤ pwFieldCount d := by
  unfold pwFieldCount
  simp only [h, ht, if_true]
  omega

/-- Claim C7 amended: the immediate-availability override exists only in
the Playwright extractor, and there it triggers on the substrings
"immediate" or "now" anywhere in the lower-cased text (not a bare word
"now"): any accepted text (≥ 50 chars) containing either substring has
`available_date` forced to `"Immediate"`, overriding any pattern date.
The LangChain extractor applies only the ordered availability patterns
(see the counterexample). -/
theorem c7_amended (text : String) (hlen : 50 ≤ text.data.length)
    (himm : (subIn ("immediate".data) (pyLower text.data) ||
             subIn ("now".data) (pyLower text.data)) = true) :
    ∃ d : PwDetails, extractRentalDetails text = some d ∧
      d.available_date = some ("Immediate") := by
  have hnl : ¬ text.data.length < 50 := by omega
  simp only [extractRentalDetails, hnl, if_false, himm, if_true]
  split
  · split
    · exact ⟨_, rfl, rfl⟩
    · next hcount =>
        exact (hcount (pwFieldCount_ge_two_of_avail_title (by rfl) (by rfl))).elim
  · split
    · exact ⟨_, rfl, rfl⟩
    · next hcount =>
        exact (hcount (pwFieldCount_ge_two_of_avail_title (by rfl) (by rfl))).elim

theorem c7_amended_witness :
    50 ≤ exT7w.data.length ∧
    (subIn ("immediate".data) (pyLower exT7w.data) ||
      subIn ("now".data) (pyLower exT7w.data)) = true ∧
    ∃ d : PwDetails, extractRentalDetails exT7w = some d ∧
      d.available_date = some ("Immediate") :=
  ⟨by decide, by decide, c7_amended exT7w (by decide) (by decide)⟩

/-! ## Claim C8 -/

/-- Claim C8 is false as stated: the boilerplate test runs on the
*derived clean description*, not on the block text, so a block containing
"resident sign in" whose description pattern picks out an earlier sentence
is returned as a 5-field record rather than rejected. -/
theorem c8_counterexample :
    strIn ("resident sign in") (lowerStr exT8) = true ∧
    (extractSingleRental exT8).isSome = true ∧
    (extractSingleRental exT8).map fieldCount = some 5 := by
  refine ⟨by decide, by decide, by decide⟩

/-- Claim C8 amended: `_extract_single_rental` returns the empty record
exactly when the description it derives from the cleaned text contains one
of the boilerplate phrases; phrase occurrences elsewhere in the block do
not cause rejection. -/
theorem c8_amended (text : String) :
    extractSingleRental text = none ↔
      isBoilerplate ⟨createCleanDescription (cleanText text).data⟩ = true := by
  simp only [extractSingleRental]
  by_cases h : isBoilerplate ⟨createCleanDescription (cleanText text).data⟩ = true
  · simp [h]
  · simp [h]

theorem c8_amended_witness :
    (extractSingleRental exT8w = none ↔
      isBoilerplate ⟨createCleanDescription (cleanText exT8w).data⟩ = true) ∧
    isBoilerplate ⟨createCleanDescription (cleanText exT8w).data⟩ = true :=
  ⟨c8_amended exT8w, by decide⟩

/-! ## Claim C9 -/

/-- Claim C9 is false as stated: a malformed model response — a string
that does not parse to a JSON list — makes `scrape_rentals` return `[]`
without falling back, even on a page text from which the deterministic
pattern extraction finds a record. -/
theorem c9_counterexample :
    scrapeRentalsCore (some (AIOutcome.returned (LLMResp.str ("oops"))))
        (fun _ => none) exT9 = [] ∧
    extractRentalsFromText exT9 ≠ [] := by
  constructor
  · rfl
  · decide

/-- Claim C9 amended: the fallback to the deterministic pattern extraction
happens when the AI strategy is unconfigured and when the model call
raises; a returned non-list value yields `[]` directly — a string response
is parsed and returned when it parses to a list, and otherwise the scrape
returns `[]` without running the pattern strategies. -/
theorem c9_amended (tryParse : String → Option (List CandidateRec))
    (pageText s : String) (hs : tryParse s = none) :
    scrapeRentalsCore none tryParse pageText = extractRentalsFromText pageText ∧
    scrapeRentalsCore (some AIOutcome.raised) tryParse pageText =
      extractRentalsFromText pageText ∧
    scrapeRentalsCore (some (AIOutcome.returned (LLMResp.str s))) tryParse pageText = [] ∧
    scrapeRentalsCore (some (AIOutcome.returned LLMResp.other)) tryParse pageText = [] := by
  refine ⟨rfl, rfl, ?_, rfl⟩
  simp [scrapeRentalsCore, hs]

theorem c9_amended_witness :
    ((fun (_ : String) => (none : Option (List CandidateRec))) ("x") = none) ∧
    scrapeRentalsCore (some (AIOutcome.returned (LLMResp.str ("x"))))
      (fun _ => none) ("") = [] :=
  ⟨rfl, (c9_amended (fun _ => none) ("") ("x") rfl).2.2.1⟩

/-! ## Claim C1: helper lemmas for the amended statement -/

theorem data_append (s t : String) : (s ++ t).data = s.data ++ t.data := by
  cases s
  cases t
  rfl

theorem idString_inj {clean : String} {j k : Nat}
    (h : clean ++ "_" ++ toString j = clean ++ "_" ++ toString k) : j = k := by
  have hd := congrArg String.data h
  rw [data_append, data_append, data_append, data_append] at hd
  have h2 : (toString j).data = (toString k).data := List.append_cancel_left hd
  exact natToString_injective (congrArg String.mk h2)

theorem idString_ne_empty (clean : String) (j : Nat) :
    clean ++ "_" ++ toString j ≠ "" := by
  intro h
  have hd := congrArg String.data h
  rw [data_append, data_append] at hd
  simp at hd

theorem isSameRental_addr {e n : RentalData} (he : e.address.isSome = true)
    (hn : n.address.isSome = true) :
    isSameRental e n = (addrKey e == addrKey n) := by
  obtain ⟨a, ha⟩ := Option.isSome_iff_exists.mp he
  obtain ⟨b, hb⟩ := Option.isSome_iff_exists.mp hn
  simp [isSameRental, addrKey, ha, hb]

theorem contains_of_mem {x : String} {l : List String} (h : x ∈ l) :
    l.contains x = true := by
  simpa [List.contains] using List.elem_eq_true_of_mem h

theorem removalFold_noop (ps : List String) (rents : List (String × Rental)) (c : Nat) :
    ∀ existing : List (String × Rental),
      (∀ kv ∈ existing, ps.contains kv.1 = true) →
      existing.foldl
        (fun (acc : List String × List (String × Rental) × Nat) kv =>
          if acc.1.contains kv.1 = true then acc
          else (acc.1, dictDel kv.1 acc.2.1, acc.2.2 + 1))
        (ps, rents, c) = (ps, rents, c) := by
  intro existing
  induction existing with
  | nil => intro _; rfl
  | cons kv t ih =>
    intro h
    simp only [List.foldl_cons]
    rw [if_pos (h kv (List.mem_cons_self _ _))]
    exact ih (fun kv' h' => h kv' (List.mem_cons_of_mem _ h'))

theorem foldl_dictSetById_mem {kv : String × Rental} :
    ∀ (rs : List Rental) (acc : List (String × Rental)),
      kv ∈ rs.foldl (fun acc r => dictSet r.id r acc) acc →
      kv ∈ acc ∨ ∃ r ∈ rs, kv = (r.id, r) := by
  intro rs
  induction rs with
  | nil => intro acc h; exact Or.inl h
  | cons r t ih =>
    intro acc h
    simp only [List.foldl_cons] at h
    rcases ih (dictSet r.id r acc) h with h1 | h2
    · rcases mem_dictSet h1 with h3 | h4
      · exact Or.inr ⟨r, List.mem_cons_self _ _, h3⟩
      · exact Or.inl h4
    · obtain ⟨r', hr', hkv⟩ := h2
      exact Or.inr ⟨r', List.mem_cons_of_mem _ hr', hkv⟩

theorem existingOfSite_mem {clean : String} {l : List (String × Rental)}
    {kv : String × Rental} (h : kv ∈ existingOfSite clean l) :
    kv.1 = kv.2.id ∧ kv.2 ∈ (l.map Prod.snd).filter (fun r => r.website == clean) := by
  unfold existingOfSite at h
  rcases foldl_dictSetById_mem _ _ h with h1 | h2
  · simp at h1
  · obtain ⟨r, hr, hkv⟩ := h2
    rw [hkv]
    exact ⟨rfl, hr⟩

theorem syncAddsGo_fst_fixed (now : Nat) (w : String) (S1 : DB) :
    ∀ (batch : List RentalData) (ps : List String),
      (∀ rd ∈ batch, (addRental now S1 w rd).1 = S1) →
      (syncAddsGo now w batch S1 ps).1 = S1 := by
  intro batch
  induction batch with
  | nil => intro ps _; rfl
  | cons rd t ih =>
    intro ps h
    simp only [syncAddsGo]
    rw [h rd (List.mem_cons_self _ _)]
    exact ih _ (fun rd' h' => h rd' (List.mem_cons_of_mem _ h'))

theorem syncAddsGo_ps_mono (now : Nat) (w : String) :
    ∀ (batch : List RentalData) (st : DB) (ps : List String) (x : String),
      x ∈ ps → x ∈ (syncAddsGo now w batch st ps).2 := by
  intro batch
  induction batch with
  | nil => intro st ps x h; exact h
  | cons rd t ih =>
    intro st ps x h
    simp only [syncAddsGo]
    apply ih
    by_cases hc : (addRental now st w rd).2 != ""
    · rw [if_pos hc]
      exact List.mem_append_left _ h
    · rw [if_neg hc]
      exact h

theorem syncAddsGo_mem_processed (now : Nat) (w : String) :
    ∀ (batch : List RentalData) (S1 : DB) (ps : List String),
      (∀ rd' ∈ batch, (addRental now S1 w rd').1 = S1) →
      ∀ rd ∈ batch, (addRental now S1 w rd).2 ≠ "" →
        (addRental now S1 w rd).2 ∈ (syncAddsGo now w batch S1 ps).2 := by
  intro batch
  induction batch with
  | nil => intro S1 ps _ rd h; simp at h
  | cons rd0 t ih =>
    intro S1 ps hfix rd hmem hne
    simp only [syncAddsGo]
    rw [hfix rd0 (List.mem_cons_self _ _)]
    rcases List.mem_cons.mp hmem with rfl | hmem'
    · apply syncAddsGo_ps_mono
      rw [if_pos (bne_iff_ne.mpr hne)]
      exact List.mem_append_right _ (List.mem_singleton_self _)
    · exact ih S1 _ (fun rd' h' => hfix rd' (List.mem_cons_of_mem _ h')) rd hmem' hne

/-- One `add_rental` call preserves the site invariant, extending the
processed prefix by the handled record. -/
theorem siteInv_step (now : Nat) (w : String) (P : List RentalData) (st : DB)
    (rd : RentalData) (hInv : SiteInv (cleanWebsite w) P st)
    (hrd : rd.address.isSome = true) :
    SiteInv (cleanWebsite w) (P ++ [rd]) (addRental now st w rd).1 := by
  obtain ⟨hA, hN, hC, hD, hE⟩ := hInv
  cases hfind : findExistingRental st (cleanWebsite w) rd with
  | some r =>
    have hrmem : r ∈ st.rentals.map Prod.snd := List.mem_of_find?_eq_some hfind
    obtain ⟨kv0, hkv0, hkv0r⟩ := List.mem_map.mp hrmem
    have hne : st.rentals ≠ [] := by
      intro h0
      rw [h0] at hkv0
      simp at hkv0
    have hw : (dictFind (cleanWebsite w) st.websites).isSome = true := by
      rcases hD with h | h
      · exact h
      · exact absurd h hne
    have hdur : (addRental now st w rd).1 = st := by
      simp only [addRental, hfind]
      rw [if_pos hw]
      by_cases hch : hasDataChanged r.data rd
      · rw [if_pos hch]
      · rw [if_neg hch]
    rw [hdur]
    have hpred := List.find?_some hfind
    have hraddr : r.data.address.isSome = true := by
      have := (hA kv0 hkv0).2.2.1
      rwa [hkv0r] at this
    have hkey : addrKey r.data = addrKey rd := by
      rw [Bool.and_eq_true] at hpred
      have hsame := hpred.2
      rw [isSameRental_addr hraddr hrd] at hsame
      exact beq_iff_eq.mp hsame
    refine ⟨?_, hN, ?_, Or.inl hw, hE⟩
    · intro kv hkv
      obtain ⟨e1, e2, e3, rd', hrd', e4⟩ := hA kv hkv
      exact ⟨e1, e2, e3, rd', List.mem_append_left _ hrd', e4⟩
    · intro rd' hrd'
      rcases List.mem_append.mp hrd' with h | h
      · exact hC rd' h
      · have heq := List.mem_singleton.mp h
        subst heq
        refine ⟨kv0, hkv0, ?_⟩
        rw [hkv0r]
        exact hkey
  | none =>
    have hnomatch := List.find?_eq_none.mp hfind
    have hfresh : ∀ kv ∈ st.rentals,
        kv.1 ≠ cleanWebsite w ++ "_" ++ toString (st.rentals.length + 1) := by
      intro kv hkv heq
      obtain ⟨j, hj1, hj2, hjid⟩ := hE kv hkv
      rw [hjid] at heq
      have := idString_inj heq
      omega
    have hrent0 : (addRental now st w rd).1.rentals =
        dictSet (cleanWebsite w ++ "_" ++ toString (st.rentals.length + 1))
          { id := cleanWebsite w ++ "_" ++ toString (st.rentals.length + 1),
            website := cleanWebsite w, source_url := w, scraped_at := now, data := rd }
          st.rentals := by
      simp only [addRental, hfind]
      by_cases hw : (dictFind (cleanWebsite w) st.websites).isSome
      · rw [if_pos hw]
      · rw [if_neg hw]
    have hrent : (addRental now st w rd).1.rentals =
        st.rentals ++ [(cleanWebsite w ++ "_" ++ toString (st.rentals.length + 1),
          { id := cleanWebsite w ++ "_" ++ toString (st.rentals.length + 1),
            website := cleanWebsite w, source_url := w, scraped_at := now, data := rd })] := by
      rw [hrent0, dictSet_of_fresh _ _ _ hfresh]
    have hwebs : (dictFind (cleanWebsite w) (addRental now st w rd).1.websites).isSome = true := by
      simp only [addRental, hfind]
      by_cases hw : (dictFind (cleanWebsite w) st.websites).isSome
      · rw [if_pos hw]
        simp only [dictFind_dictModify_self]
        obtain ⟨i0, hi0⟩ := Option.isSome_iff_exists.mp hw
        rw [hi0]
        rfl
      · rw [if_neg hw]
        simp only [dictFind_dictModify_self, dictFind_dictSet_self]
        rfl
    refine ⟨?_, ?_, ?_, Or.inl hwebs, ?_⟩
    · intro kv hkv
      rw [hrent] at hkv
      rcases List.mem_append.mp hkv with hold | hnew
      · obtain ⟨e1, e2, e3, rd', hrd', e4⟩ := hA kv hold
        exact ⟨e1, e2, e3, rd', List.mem_append_left _ hrd', e4⟩
      · have heq := List.mem_singleton.mp hnew
        subst heq
        exact ⟨rfl, rfl, hrd, rd, List.mem_append_right _ (List.mem_singleton_self _), rfl⟩
    · rw [hrent]
      simp only [List.map_append, List.map_cons, List.map_nil]
      rw [List.nodup_append]
      refine ⟨hN, by simp, ?_⟩
      intro x hx hx2
      obtain ⟨kv, hkv, rfl⟩ := List.mem_map.mp hx
      have hxeq : addrKey kv.2.data = addrKey rd := by simpa using hx2
      apply hnomatch kv.2 (List.mem_map.mpr ⟨kv, hkv, rfl⟩)
      rw [Bool.and_eq_true]
      constructor
      · rw [(hA kv hkv).2.1]
        exact beq_self_eq_true _
      · rw [isSameRental_addr (hA kv hkv).2.2.1 hrd, hxeq]
        exact beq_self_eq_true _
    · intro rd' hrd'
      rcases List.mem_append.mp hrd' with h | h
      · obtain ⟨kv, hkv, he⟩ := hC rd' h
        exact ⟨kv, by rw [hrent]; exact List.mem_append_left _ hkv, he⟩
      · have heq := List.mem_singleton.mp h
        subst heq
        exact ⟨_, by rw [hrent]; exact List.mem_append_right _ (List.mem_singleton_self _), rfl⟩
    · intro kv hkv
      rw [hrent] at hkv
      rw [hrent, List.length_append]
      rcases List.mem_append.mp hkv with hold | hnew
      · obtain ⟨j, hj1, hj2, hjid⟩ := hE kv hold
        exact ⟨j, hj1, by simp; omega, hjid⟩
      · have heq := List.mem_singleton.mp hnew
        subst heq
        exact ⟨st.rentals.length + 1, by omega, by simp, rfl⟩

theorem syncAddsGo_inv (now : Nat) (w : String) :
    ∀ (batch : List RentalData) (st : DB) (ps : List String) (P : List RentalData),
      SiteInv (cleanWebsite w) P st →
      (∀ rd ∈ batch, rd.address.isSome = true) →
      SiteInv (cleanWebsite w) (P ++ batch) (syncAddsGo now w batch st ps).1 := by
  intro batch
  induction batch with
  | nil =>
    intro st ps P h _
    simpa [syncAddsGo] using h
  | cons rd t ih =>
    intro st ps P h hB
    simp only [syncAddsGo]
    have hstep := siteInv_step now w P st rd h (hB rd (List.mem_cons_self _ _))
    have hrec := ih (addRental now st w rd).1
      (if (addRental now st w rd).2 != "" then ps ++ [(addRental now st w rd).2] else ps)
      (P ++ [rd]) hstep (fun rd' h' => hB rd' (List.mem_cons_of_mem _ h'))
    simpa [List.append_assoc] using hrec

/-- A store satisfying the site invariant for the whole batch is a fixed
point of `sync_rentals`, which then reports `(len(batch), 0)`. -/
theorem syncRentals_fixed_point (now2 : Nat) (w : String) (B : List RentalData) (S1 : DB)
    (hInv : SiteInv (cleanWebsite w) B S1)
    (hB : ∀ rd ∈ B, rd.address.isSome = true) :
    syncRentals now2 S1 w B = (S1, (B.length, 0)) := by
  obtain ⟨hA, hN, hC, hD, hE⟩ := hInv
  have hfind2 : ∀ rd ∈ B, ∃ kv ∈ S1.rentals,
      findExistingRental S1 (cleanWebsite w) rd = some kv.2 := by
    intro rd hrd
    obtain ⟨kv, hkv, hkey⟩ := hC rd hrd
    refine ⟨kv, hkv, ?_⟩
    unfold findExistingRental
    apply find?_eq_some_of_unique
    · exact List.mem_map.mpr ⟨kv, hkv, rfl⟩
    · rw [Bool.and_eq_true]
      refine ⟨by rw [(hA kv hkv).2.1]; exact beq_self_eq_true _, ?_⟩
      rw [isSameRental_addr (hA kv hkv).2.2.1 (hB rd hrd), hkey]
      exact beq_self_eq_true _
    · intro y hy hpy
      obtain ⟨kv', hkv', rfl⟩ := List.mem_map.mp hy
      rw [Bool.and_eq_true] at hpy
      have hkey' : addrKey kv'.2.data = addrKey rd := by
        have h2 := hpy.2
        rw [isSameRental_addr (hA kv' hkv').2.2.1 (hB rd hrd)] at h2
        exact beq_iff_eq.mp h2
      have heq : kv' = kv := List.inj_on_of_nodup_map hN hkv' hkv (by rw [hkey', hkey])
      rw [heq]
  have hfix : ∀ rd ∈ B, (addRental now2 S1 w rd).1 = S1 := by
    intro rd hrd
    obtain ⟨kv, hkv, hfeq⟩ := hfind2 rd hrd
    have hne : S1.rentals ≠ [] := by
      intro h0
      rw [h0] at hkv
      simp at hkv
    have hw : (dictFind (cleanWebsite w) S1.websites).isSome = true := by
      rcases hD with h | h
      · exact h
      · exact absurd h hne
    simp only [addRental, hfeq]
    rw [if_pos hw]
    by_cases hch : hasDataChanged kv.2.data rd
    · rw [if_pos hch]
    · rw [if_neg hch]
  have hcover : ∀ kvE ∈ existingOfSite (cleanWebsite w) S1.rentals,
      ((syncAddsGo now2 w B S1 []).2).contains kvE.1 = true := by
    intro kvE hkvE
    obtain ⟨hid, hmemf⟩ := existingOfSite_mem hkvE
    have hmem2 := List.mem_of_mem_filter hmemf
    obtain ⟨kv2, hkv2, hkv2e⟩ := List.mem_map.mp hmem2
    obtain ⟨e1, e2, e3, rd, hrdB, hkeyeq⟩ := hA kv2 hkv2
    obtain ⟨kv', hkv', hfeq⟩ := hfind2 rd hrdB
    have hpred := List.find?_some hfeq
    have hkey' : addrKey kv'.2.data = addrKey rd := by
      rw [Bool.and_eq_true] at hpred
      have h2 := hpred.2
      rw [isSameRental_addr (hA kv' hkv').2.2.1 (hB rd hrdB)] at h2
      exact beq_iff_eq.mp h2
    have hkveq : kv' = kv2 := List.inj_on_of_nodup_map hN hkv' hkv2 (by rw [hkey', hkeyeq])
    have hretid : (addRental now2 S1 w rd).2 = kv2.2.id := by
      simp only [addRental, hfeq]
      rw [hkveq]
      by_cases hch : hasDataChanged kv2.2.data rd
      · rw [if_pos hch]
      · rw [if_neg hch]
    have hid_ne : kv2.2.id ≠ "" := by
      obtain ⟨j, hj1, hj2, hjid⟩ := hE kv2 hkv2
      rw [← (hA kv2 hkv2).1, hjid]
      exact idString_ne_empty _ _
    have hmemp : kv2.2.id ∈ (syncAddsGo now2 w B S1 []).2 := by
      have hmm := syncAddsGo_mem_processed now2 w B S1 [] hfix rd hrdB
        (by rw [hretid]; exact hid_ne)
      rwa [hretid] at hmm
    rw [hid, ← hkv2e]
    exact contains_of_mem hmemp
  simp only [syncRentals, syncAdds]
  rw [removalFold_noop _ _ _ _ hcover]
  simp only [gt_iff_lt, Nat.lt_irrefl, if_false]
  rw [syncAddsGo_fst_fixed now2 w S1 B [] hfix]

/-- Claim C1 amended: re-running `sync` with an identical batch is
idempotent on the store but not in its return value.  Starting from a
store with no rentals and a batch whose records all carry an address, the
second `sync(site, B)` leaves the durable store exactly unchanged and
returns `(len(B), 0)` — the first component is the length of the supplied
batch, not the number of adds or updates, so the claimed `(0, 0)` is
returned only for an empty batch. -/
theorem c1_amended (now1 now2 : Nat) (store : DB) (w : String) (B : List RentalData)
    (hempty : store.rentals = [])
    (hB : ∀ rd ∈ B, rd.address.isSome = true) :
    (syncRentals now2 (syncRentals now1 store w B).1 w B).1 =
      (syncRentals now1 store w B).1 ∧
    (syncRentals now2 (syncRentals now1 store w B).1 w B).2 = (B.length, 0) := by
  have hInv0 : SiteInv (cleanWebsite w) [] store := by
    refine ⟨?_, ?_, ?_, Or.inr hempty, ?_⟩
    · intro kv hkv
      rw [hempty] at hkv
      simp at hkv
    · rw [hempty]
      exact List.nodup_nil
    · intro rd h
      simp at h
    · intro kv hkv
      rw [hempty] at hkv
      simp at hkv
  have hex : existingOfSite (cleanWebsite w) store.rentals = [] := by
    rw [hempty]
    rfl
  have hS1 : (syncRentals now1 store w B).1 = (syncAddsGo now1 w B store []).1 := by
    simp only [syncRentals, syncAdds]
    rw [hex]
    simp only [List.foldl_nil, gt_iff_lt, Nat.lt_irrefl, if_false]
  have hInvS1 : SiteInv (cleanWebsite w) B (syncAddsGo now1 w B store []).1 := by
    have hi := syncAddsGo_inv now1 w B store [] [] hInv0 hB
    simpa using hi
  rw [hS1]
  rw [syncRentals_fixed_point now2 w B _ hInvS1 hB]
  exact ⟨rfl, rfl⟩

theorem c1_amended_witness :
    emptyDB.rentals = [] ∧ (∀ rd ∈ ([exA] : List RentalData), rd.address.isSome = true) ∧
    ((syncRentals 1 (syncRentals 0 emptyDB exSite [exA]).1 exSite [exA]).1 =
        (syncRentals 0 emptyDB exSite [exA]).1 ∧
      (syncRentals 1 (syncRentals 0 emptyDB exSite [exA]).1 exSite [exA]).2 =
        (([exA] : List RentalData).length, 0)) :=
  ⟨rfl, by decide, c1_amended 0 1 emptyDB exSite [exA] rfl (by decide)⟩

end PeteRental
